import Mathlib

/-!
# Quiz front end: scoring state machine and authoring validator

A shallow embedding of `src/QuizData.js` (the quiz-taking component) and
`src/AddQuiz.js` (the authoring form) together with the properties their
specification states about them.

Modelling conventions.

* React state is passed explicitly: every handler is a function from the state of
  the render that installed it to the next state, together with the effects it
  emits (console lines, toasts, HTTP requests).
* JavaScript strings are Lean strings; `.length` counts UTF-16 code units and
  `.trim()` strips the ECMAScript white space and line terminator code points.
* JavaScript numbers are IEEE-754 binary64. The only arithmetic of the program is
  `Math.round((c / n) * 100)` on array lengths; the quotient and the product are
  each rounded to the nearest binary64 value (ties to even), which is what
  `roundToDouble` computes on exact fractions.
* Question identifiers are the numeric ids assigned by the backend.
-/

namespace QuizFrontend

/-! ## JavaScript primitives -/

/-- ECMAScript `WhiteSpace` and `LineTerminator` code points, the ones removed by
`String.prototype.trim`. -/
def isJSWhiteSpace (c : Char) : Bool :=
  c.val.toNat ∈ [0x09, 0x0A, 0x0B, 0x0C, 0x0D, 0x20, 0xA0, 0x1680, 0x2000, 0x2001, 0x2002,
    0x2003, 0x2004, 0x2005, 0x2006, 0x2007, 0x2008, 0x2009, 0x200A, 0x2028, 0x2029, 0x202F,
    0x205F, 0x3000, 0xFEFF]

/-- The method `String.prototype.trim`: white space removed at both ends. -/
def jsTrim (s : String) : String :=
  ⟨((s.data.dropWhile isJSWhiteSpace).reverse.dropWhile isJSWhiteSpace).reverse⟩

/-- The property `String.prototype.length`: the number of UTF-16 code units. -/
def jsLength (s : String) : Nat :=
  (s.data.map fun c => if c.val.toNat < 0x10000 then 1 else 2).sum

/-- Truthiness of a string value: every string but the empty one. -/
def jsTruthy (s : String) : Bool :=
  !s.data.isEmpty

/-- Integer nearest to `N / D`, ties going to the even neighbour. -/
def roundHalfEven (N D : Nat) : Nat :=
  if 2 * (N % D) < D then N / D
  else if D < 2 * (N % D) then N / D + 1
  else if (N / D) % 2 = 0 then N / D
  else N / D + 1

/-- Halving loop of `log2Floor`: the number of halvings that bring `n` below 2, at most
`fuel` of them. -/
def log2FloorLoop : Nat → Nat → Nat
  | 0, _ => 0
  | fuel + 1, n => if n < 2 then 0 else log2FloorLoop fuel (n / 2) + 1

/-- Position of the leading bit, `⌊log₂ n⌋`, by repeated halving (`0` for `n = 0`). -/
def log2Floor (n : Nat) : Nat :=
  log2FloorLoop n n

/-- The binary64 value nearest to the exact quotient `p / q` (round to nearest, ties to
even, 53 significant bits), returned as numerator and denominator. The scaled
significand `p * 2 ^ a / (q * 2 ^ b)` lies in `[2 ^ 52, 2 ^ 53)`. The exponent range is
not bounded, which is exact for the magnitudes `2 ^ (-1022) ≤ p / q < 2 ^ 1024`. -/
def roundToDouble (p q : Nat) : Nat × Nat :=
  if p = 0 then (0, 1)
  else
    let a := 53 + log2Floor q
    let b := if 2 ^ 52 * (q * 2 ^ (log2Floor p + 1)) ≤ p * 2 ^ a then log2Floor p + 1
             else log2Floor p
    (roundHalfEven (p * 2 ^ a) (q * 2 ^ b) * 2 ^ b, 2 ^ a)

/-- The function `Math.round` on a non-negative fraction: the nearest integer, a tie going to the
larger one, which is `⌊x + 1/2⌋`. -/
def mathRound (x : Nat × Nat) : Nat :=
  (2 * x.1 + x.2) / (2 * x.2)

/-- The expression `Math.round((correctCount / length) * 100)` of `handleSubmitQuiz` (line 72). The
division and the multiplication are binary64 operations. With `length = 0` the quotient is
`NaN` (or `Infinity`), which no integer stands for: `none`. -/
def percentage (correctCount length : Nat) : Option Nat :=
  if length = 0 then none
  else
    let quotient := roundToDouble correctCount length
    let product := roundToDouble (quotient.1 * 100) quotient.2
    some (mathRound product)

/-- Exact round-half-up of `100 * score / total`, the percentage as the specification
words it. -/
def specPercentage (score total : Nat) : Nat :=
  (200 * score + total) / (2 * total)

/-! ## Data model of the quiz-taking component -/

/-- A question of a published quiz, as fetched from the backend. -/
structure Question where
  id : Nat
  text : String
  options : List String
  correctOption : String
  deriving DecidableEq, Repr

/-- The `quizDetails` state once the quiz has been fetched. -/
structure QuizDetails where
  id : Nat
  title : String
  questions : List Question
  deriving DecidableEq, Repr

/-- The signed-in user of `UserContext` (`user.data.user`). -/
structure User where
  id : Nat
  username : String
  deriving DecidableEq, Repr

/-- The `selectedAnswers` object: question id to selected option, in insertion order. -/
abbrev Ledger := List (Nat × String)

/-- Property read `selectedAnswers[questionId]`; `none` is `undefined`. -/
def lookupAnswer : Ledger → Nat → Option String
  | [], _ => none
  | (k, v) :: rest, questionId => if k = questionId then some v else lookupAnswer rest questionId

/-- The object `{ ...prev, [questionId]: selectedOption }`: an existing key keeps its
place and takes the new value, a new key is appended. -/
def upsertAnswer : Ledger → Nat → String → Ledger
  | [], questionId, selectedOption => [(questionId, selectedOption)]
  | (k, v) :: rest, questionId, selectedOption =>
    if k = questionId then (k, selectedOption) :: rest
    else (k, v) :: upsertAnswer rest questionId selectedOption

/-- The record posted to `/quiz-results`. -/
structure QuizResult where
  userId : Nat
  username : String
  quizId : Nat
  quizTitle : String
  score : Nat
  totalQuestions : Nat
  percentage : Option Nat
  timeTakenSeconds : Option Nat
  deriving DecidableEq, Repr

/-- The `useState` cells of the `QuizData` component. -/
structure QuizState where
  quizDetails : QuizDetails
  selectedAnswers : Ledger
  currentQuestion : Nat
  quizCompleted : Bool
  score : Nat
  showResults : Bool
  deriving DecidableEq, Repr

/-- What a handler emits besides the state update. -/
structure Effects where
  console : List String
  toasts : List String
  requests : List QuizResult
  deriving DecidableEq, Repr

/-- A handler that emits nothing. -/
def noEffects : Effects :=
  { console := [], toasts := [], requests := [] }

/-- The state of the first render after the quiz has been fetched. -/
def initialState (quiz : QuizDetails) : QuizState :=
  { quizDetails := quiz, selectedAnswers := [], currentQuestion := 0,
    quizCompleted := false, score := 0, showResults := false }

/-! ## Handlers of `QuizData.js` -/

/-- Lines 37-42. -/
def handleOptionClick (s : QuizState) (questionId : Nat) (selectedOption : String) : QuizState :=
  { s with selectedAnswers := upsertAnswer s.selectedAnswers questionId selectedOption }

/-- The `forEach` loop of lines 59-66: one more for each question whose recorded answer is
strictly equal to its `correctOption`. -/
def countCorrect (questions : List Question) (selectedAnswers : Ledger) : Nat :=
  questions.foldl
    (fun correctCount question =>
      if lookupAnswer selectedAnswers question.id = some question.correctOption
      then correctCount + 1 else correctCount)
    0

/-- How a percentage prints inside a template string. -/
def showPercentage : Option Nat → String
  | some p => toString p
  | none => "NaN"

/-- Lines 58-95. The state setters run first; the request is built and sent inside
`try`, whose `catch` logs the failure; the toast follows in both cases. `post` is the
answer of the backend to the request, `Except.error` being a rejected `axios.post`. The
result is the settled promise: `Except.ok` resolved, `Except.error` rejected. -/
def handleSubmitQuiz (user : User) (post : QuizResult → Except String Unit) (s : QuizState) :
    Except String (QuizState × Effects) := do
  let correctCount := countCorrect s.quizDetails.questions s.selectedAnswers
  let s1 := { s with score := correctCount, quizCompleted := true, showResults := true }
  let percentage := percentage correctCount s.quizDetails.questions.length
  let quizResult : QuizResult :=
    { userId := user.id, username := user.username, quizId := s.quizDetails.id,
      quizTitle := s.quizDetails.title, score := correctCount,
      totalQuestions := s.quizDetails.questions.length, percentage := percentage,
      timeTakenSeconds := none }
  let console ← Except.tryCatch
    (do post quizResult; pure ["Quiz result saved successfully"])
    (fun error => pure ["Error saving quiz result: " ++ error])
  pure (s1,
    { console := console,
      toasts := ["Quiz completed! Your score: " ++ toString correctCount ++ "/" ++
        toString s.quizDetails.questions.length ++ " (" ++ showPercentage percentage ++ "%)"],
      requests := [quizResult] })

/-- Lines 44-50. The comparison is on JavaScript numbers, so `length - 1` is `-1` for an
empty array. -/
def handleNextQuestion (user : User) (post : QuizResult → Except String Unit) (s : QuizState) :
    Except String (QuizState × Effects) :=
  if (s.currentQuestion : Int) < (s.quizDetails.questions.length : Int) - 1 then
    pure ({ s with currentQuestion := s.currentQuestion + 1 }, noEffects)
  else
    handleSubmitQuiz user post s

/-- Lines 52-56. -/
def handlePreviousQuestion (s : QuizState) : QuizState :=
  if s.currentQuestion > 0 then { s with currentQuestion := s.currentQuestion - 1 } else s

/-- Lines 97-99. -/
def isOptionSelected (s : QuizState) (questionId : Nat) (option : String) : Bool :=
  lookupAnswer s.selectedAnswers questionId = some option

/-- Lines 101-104, as the truth value the `disabled` attribute takes of it: the current
question exists and its recorded answer is a truthy value. -/
def canProceed (s : QuizState) : Bool :=
  match s.quizDetails.questions[s.currentQuestion]? with
  | none => false
  | some currentQuestionData =>
    match lookupAnswer s.selectedAnswers currentQuestionData.id with
    | none => false
    | some answer => jsTruthy answer

/-! ## The rendered controls

The handlers are reachable only through the elements of the quiz view, which is rendered
when the results are not shown (line 106) and the quiz has questions (line 157). -/

/-- The quiz container of lines 157-206 is on screen. -/
def quizViewRendered (s : QuizState) : Bool :=
  !s.showResults && decide (s.quizDetails.questions.length > 0)

/-- A click on the Next / Submit button (lines 196-202), which is `disabled` unless
`canProceed()`: the `advance` transition. -/
def clickNext (user : User) (post : QuizResult → Except String Unit) (s : QuizState) :
    Except String (QuizState × Effects) :=
  if quizViewRendered s && canProceed s then handleNextQuestion user post s
  else pure (s, noEffects)

/-- A click on the Previous button (lines 188-194), `disabled` on the first question: the
`retreat` transition. -/
def clickPrevious (s : QuizState) : QuizState :=
  if quizViewRendered s && decide (s.currentQuestion ≠ 0) then handlePreviousQuestion s else s

/-- A click on the option at `index` of the current question (lines 175-184): the
`selectAnswer` transition. -/
def clickOption (s : QuizState) (index : Nat) : QuizState :=
  if quizViewRendered s then
    match s.quizDetails.questions[s.currentQuestion]? with
    | none => s
    | some question =>
      match question.options[index]? with
      | none => s
      | some option => handleOptionClick s question.id option
  else s

/-- The two states of the specification, read off the component state. -/
inductive Phase where
  | inProgress (currentIndex : Nat)
  | completed (score : Nat) (percentage : Option Nat)
  deriving DecidableEq, Repr

/-- The results view (lines 106-145) shows `score` and
`Math.round((score / length) * 100)`; the quiz view shows question `currentQuestion`. -/
def phase (s : QuizState) : Phase :=
  if s.showResults then
    Phase.completed s.score (percentage s.score s.quizDetails.questions.length)
  else Phase.inProgress s.currentQuestion

/-- The state a handler leaves once its promise has resolved. -/
def nextState (r : Except String (QuizState × Effects)) : Option QuizState :=
  match r with
  | .ok (s, _) => some s
  | .error _ => none

/-- The requests a handler has sent to `/quiz-results`. -/
def requestsOf (r : Except String (QuizState × Effects)) : List QuizResult :=
  match r with
  | .ok (_, effects) => effects.requests
  | .error _ => []

/-! ## Sample quizzes -/

/-- A signed-in student. -/
def sampleUser : User :=
  { id := 11, username := "student" }

/-- A backend that stores every result. -/
def backendUp : QuizResult → Except String Unit :=
  fun _ => Except.ok ()

/-- A backend that refuses every request. -/
def backendDown : QuizResult → Except String Unit :=
  fun _ => Except.error "Network Error"

/-- Two questions whose correct answers are `"A"` and `"C"`. -/
def twoQuestionQuiz : QuizDetails :=
  { id := 7, title := "Letters",
    questions :=
      [{ id := 1, text := "First letter?", options := ["A", "B"], correctOption := "A" },
       { id := 2, text := "Third letter?", options := ["C", "X"], correctOption := "C" }] }

/-- The two-question quiz answered `"A"` then `"X"`, cursor on the last question. -/
def twoQuestionSession : QuizState :=
  { quizDetails := twoQuestionQuiz, selectedAnswers := [(1, "A"), (2, "X")],
    currentQuestion := 1, quizCompleted := false, score := 0, showResults := false }

/-- Three questions. -/
def threeQuestionQuiz : QuizDetails :=
  { id := 8, title := "Capitals",
    questions :=
      [{ id := 1, text := "Capital of France?", options := ["Paris", "Rome"],
         correctOption := "Paris" },
       { id := 2, text := "Capital of Italy?", options := ["Paris", "Rome"],
         correctOption := "Rome" },
       { id := 3, text := "Capital of Spain?", options := ["Madrid", "Rome"],
         correctOption := "Madrid" }] }

/-- The three-question quiz with questions 1 and 2 answered and the cursor on question 3. -/
def threeQuestionSession : QuizState :=
  { quizDetails := threeQuestionQuiz, selectedAnswers := [(1, "Paris"), (2, "Paris")],
    currentQuestion := 2, quizCompleted := false, score := 0, showResults := false }

/-- One question whose first option is the empty string. -/
def blankOptionQuiz : QuizDetails :=
  { id := 12, title := "Blanks",
    questions := [{ id := 4, text := "Which one is empty?", options := ["", "b"],
                    correctOption := "" }] }

/-- The session on `blankOptionQuiz` after a click on the first, empty, option. -/
def blankAnswerSession : QuizState :=
  clickOption (initialState blankOptionQuiz) 0

/-- Two questions, the first of which has the empty string as its first option. -/
def blankFirstQuiz : QuizDetails :=
  { id := 13, title := "Blanks and letters",
    questions :=
      [{ id := 4, text := "Which one is empty?", options := ["", "b"], correctOption := "" },
       { id := 6, text := "Third letter?", options := ["C", "X"], correctOption := "C" }] }

/-- The session on `blankFirstQuiz` after a click on the first, empty, option of its first
question. -/
def blankFirstSession : QuizState :=
  clickOption (initialState blankFirstQuiz) 0

/-- One question. -/
def oneQuestionQuiz : QuizDetails :=
  { id := 9, title := "Sums",
    questions := [{ id := 5, text := "What is 2 + 2?", options := ["3", "4"],
                    correctOption := "4" }] }

/-- A quiz of `n` questions, each with the options `"yes"` and `"no"` and the correct
answer `"yes"`. -/
def yesNoQuiz (n : Nat) : QuizDetails :=
  { id := 10, title := "Yes or no",
    questions := (List.range n).map fun i =>
      { id := i, text := "Is it so?", options := ["yes", "no"], correctOption := "yes" } }

/-- The `yesNoQuiz n` session on its last question in which the first `c` questions are
answered `"yes"` and the others `"no"`. -/
def yesNoSession (c n : Nat) : QuizState :=
  { quizDetails := yesNoQuiz n,
    selectedAnswers := (List.range n).map fun i => (i, if i < c then "yes" else "no"),
    currentQuestion := n - 1, quizCompleted := false, score := 0, showResults := false }

/-! ## Data model of the authoring form (`AddQuiz.js`) -/

/-- A question of the draft. -/
structure DraftQuestion where
  text : String
  options : List String
  correctOption : String
  deriving DecidableEq, Repr

/-- The `quiz` state of the form, which is also the body posted to `/quizzes`. -/
structure DraftQuiz where
  title : String
  username : String
  questions : List DraftQuestion
  deriving DecidableEq, Repr

/-- The `questionErrors` object of one question: a message per field in error. -/
structure QuestionErrors where
  text : Option String
  options : Option String
  correctOption : Option String
  deriving DecidableEq, Repr

/-- The `errors` state: the `title` message and, under the key `question_<index>`, the
errors of each question that has some. -/
structure FormErrors where
  title : Option String
  questions : List (Nat × QuestionErrors)
  deriving DecidableEq, Repr

/-- The `useState` cells of the `AddQuiz` component. -/
structure FormState where
  quiz : DraftQuiz
  errors : FormErrors
  isSubmitting : Bool
  deriving DecidableEq, Repr

/-- What a handler of the form emits. -/
structure FormEffects where
  console : List String
  toasts : List String
  requests : List DraftQuiz
  navigations : List String
  deriving DecidableEq, Repr

/-- A form handler that emits nothing. -/
def noFormEffects : FormEffects :=
  { console := [], toasts := [], requests := [], navigations := [] }

/-- The question a new card starts from (lines 18-22 and 84). -/
def emptyQuestion : DraftQuestion :=
  { text := "", options := ["", "", "", ""], correctOption := "" }

/-- The state of the first render (lines 14-27). -/
def initialForm (username : String) : FormState :=
  { quiz := { title := "", username := username, questions := [emptyQuestion] },
    errors := { title := none, questions := [] },
    isSubmitting := false }

/-- The element at `index` replaced by its image under `f`; other indices are left alone.
The handlers are installed per rendered card, so their indices are in range. -/
def updateAt {α : Type} : List α → Nat → (α → α) → List α
  | [], _, _ => []
  | x :: rest, 0, f => f x :: rest
  | x :: rest, index + 1, f => x :: updateAt rest index f

/-! ## Validation (lines 30-77) -/

/-- Message of `MissingTitle`. -/
def msgTitleRequired : String := "Quiz title is required"

/-- Message of `TitleTooShort`. -/
def msgTitleTooShort : String := "Quiz title must be at least 3 characters long"

/-- Message of `MissingQuestionText`. -/
def msgTextRequired : String := "Question text is required"

/-- Message of `QuestionTooShort`. -/
def msgTextTooShort : String := "Question must be at least 5 characters long"

/-- Message of `InsufficientOptions`. -/
def msgTooFewOptions : String := "At least 2 options are required"

/-- Message of `DuplicateOptions`. -/
def msgDuplicateOptions : String := "Options must be unique"

/-- Message of `MissingCorrectOption`. -/
def msgCorrectRequired : String := "Correct option is required"

/-- Message of `CorrectOptionMismatch`. -/
def msgCorrectMismatch : String := "Correct option must match one of the provided options"

/-- Lines 34-38: the `title` entry of `newErrors`. -/
def validateTitle (title : String) : Option String :=
  if !jsTruthy (jsTrim title) then some msgTitleRequired
  else if jsLength (jsTrim title) < 3 then some msgTitleTooShort
  else none

/-- Line 52, also line 139: the options that are not blank, untrimmed. -/
def filledOptions (options : List String) : List String :=
  options.filter fun option => jsTruthy (jsTrim option)

/-- Lines 42-68: the `questionErrors` object of one question. The duplicate check
overwrites the message of the count check. -/
def validateQuestion (question : DraftQuestion) : QuestionErrors :=
  let text :=
    if !jsTruthy (jsTrim question.text) then some msgTextRequired
    else if jsLength (jsTrim question.text) < 5 then some msgTextTooShort
    else none
  let filled := filledOptions question.options
  let options1 := if filled.length < 2 then some msgTooFewOptions else none
  let uniqueOptions := filled.dedup
  let options := if uniqueOptions.length ≠ filled.length then some msgDuplicateOptions
                 else options1
  let correctOption :=
    if !jsTruthy (jsTrim question.correctOption) then some msgCorrectRequired
    else if !filled.contains (jsTrim question.correctOption) then some msgCorrectMismatch
    else none
  { text := text, options := options, correctOption := correctOption }

/-- The test `Object.keys(questionErrors).length > 0`. -/
def QuestionErrors.nonEmpty (e : QuestionErrors) : Bool :=
  e.text.isSome || e.options.isSome || e.correctOption.isSome

/-- The `forEach` of lines 41-73 from index `qIndex` on: the entries `question_<index>`
of `newErrors`. -/
def validateQuestions : Nat → List DraftQuestion → List (Nat × QuestionErrors)
  | _, [] => []
  | qIndex, question :: rest =>
    if (validateQuestion question).nonEmpty then
      (qIndex, validateQuestion question) :: validateQuestions (qIndex + 1) rest
    else validateQuestions (qIndex + 1) rest

/-- The `newErrors` object built by `validateQuiz`. -/
def quizErrors (quiz : DraftQuiz) : FormErrors :=
  { title := validateTitle quiz.title, questions := validateQuestions 0 quiz.questions }

/-- The test `Object.keys(newErrors).length === 0`. -/
def FormErrors.isEmpty (e : FormErrors) : Bool :=
  e.title.isNone && e.questions.isEmpty

/-- Lines 30-77: stores the report in `errors` and returns whether it is empty. -/
def validateQuiz (st : FormState) : FormState × Bool :=
  ({ st with errors := quizErrors st.quiz }, (quizErrors st.quiz).isEmpty)

/-! ## Editing handlers (lines 79-121 and 155-191) -/

/-- Lines 79-87. -/
def addQuestion (st : FormState) : FormState :=
  { st with quiz := { st.quiz with questions := st.quiz.questions ++ [emptyQuestion] } }

/-- Lines 89-101. -/
def removeQuestion (st : FormState) (qIndex : Nat) : FormState × FormEffects :=
  if st.quiz.questions.length > 1 then
    let newQuestions := st.quiz.questions.eraseIdx qIndex
    let newErrors : FormErrors :=
      { st.errors with questions := st.errors.questions.filter (fun entry => entry.1 ≠ qIndex) }
    ({ st with quiz := { st.quiz with questions := newQuestions }, errors := newErrors },
      noFormEffects)
  else
    (st, { noFormEffects with toasts := ["At least one question is required"] })

/-- The options of the question at `qIndex`, `[]` when there is no such question. -/
def optionsAt (st : FormState) (qIndex : Nat) : List String :=
  match st.quiz.questions[qIndex]? with
  | some question => question.options
  | none => []

/-- Lines 103-111. -/
def addOption (st : FormState) (qIndex : Nat) : FormState × FormEffects :=
  if (optionsAt st qIndex).length < 6 then
    let newQuestions := updateAt st.quiz.questions qIndex
      (fun question => { question with options := question.options ++ [""] })
    ({ st with quiz := { st.quiz with questions := newQuestions } }, noFormEffects)
  else
    (st, { noFormEffects with toasts := ["Maximum 6 options allowed per question"] })

/-- Lines 113-121. -/
def removeOption (st : FormState) (qIndex oIndex : Nat) : FormState × FormEffects :=
  if (optionsAt st qIndex).length > 2 then
    let newQuestions := updateAt st.quiz.questions qIndex
      (fun question => { question with options := question.options.eraseIdx oIndex })
    ({ st with quiz := { st.quiz with questions := newQuestions } }, noFormEffects)
  else
    (st, { noFormEffects with toasts := ["At least 2 options are required"] })

/-- The `errors` object after the field `field` of `question_<qIndex>` has been deleted,
and the entry with it when nothing is left in it (lines 161-168 and 183-190). -/
def clearQuestionError (errors : FormErrors) (qIndex : Nat)
    (clear : QuestionErrors → QuestionErrors) : FormErrors :=
  let cleared := errors.questions.map
    (fun entry => if entry.1 = qIndex then (entry.1, clear entry.2) else entry)
  { errors with questions := cleared.filter (fun entry => entry.1 ≠ qIndex || entry.2.nonEmpty) }

/-- The errors recorded under `question_<qIndex>`, if any. -/
def questionErrorsAt (errors : FormErrors) (qIndex : Nat) : Option QuestionErrors :=
  (errors.questions.find? fun entry => entry.1 = qIndex).map Prod.snd

/-- Lines 155-169. -/
def updateQuestionText (st : FormState) (qIndex : Nat) (value : String) : FormState :=
  let newQuestions := updateAt st.quiz.questions qIndex
    (fun question => { question with text := value })
  let quiz := { st.quiz with questions := newQuestions }
  match (questionErrorsAt st.errors qIndex).bind QuestionErrors.text with
  | some _ =>
    let newErrors := clearQuestionError st.errors qIndex (fun e => { e with text := none })
    { st with quiz := quiz, errors := newErrors }
  | none => { st with quiz := quiz }

/-- Lines 171-175. -/
def updateOption (st : FormState) (qIndex oIndex : Nat) (value : String) : FormState :=
  let newQuestions := updateAt st.quiz.questions qIndex
    (fun question => { question with options := question.options.set oIndex value })
  { st with quiz := { st.quiz with questions := newQuestions } }

/-- Lines 177-191. -/
def updateCorrectOption (st : FormState) (qIndex : Nat) (value : String) : FormState :=
  let newQuestions := updateAt st.quiz.questions qIndex
    (fun question => { question with correctOption := value })
  let quiz := { st.quiz with questions := newQuestions }
  match (questionErrorsAt st.errors qIndex).bind QuestionErrors.correctOption with
  | some _ =>
    let newErrors :=
      clearQuestionError st.errors qIndex (fun e => { e with correctOption := none })
    { st with quiz := quiz, errors := newErrors }
  | none => { st with quiz := quiz }

/-- The `onChange` of the title input (lines 212-219). -/
def updateTitle (st : FormState) (value : String) : FormState :=
  { st with quiz := { st.quiz with title := value },
            errors := { st.errors with title := none } }

/-! ## Submission (lines 123-153) -/

/-- Lines 135-141: every question keeps only its options that are not blank. -/
def cleanedQuiz (quiz : DraftQuiz) : DraftQuiz :=
  let questions := quiz.questions.map
    (fun question => { question with options := filledOptions question.options })
  { quiz with questions := questions }

/-- Lines 123-153. An invalid draft ends the handler after the error toast, before
anything is sent. Otherwise the cleaned quiz is posted; `post` is the answer of the
backend, a response body or a rejection. -/
def handleSubmit (post : DraftQuiz → Except String String) (st : FormState) :
    FormState × FormEffects :=
  let (st1, valid) := validateQuiz st
  if !valid then
    (st1, { noFormEffects with toasts := ["Please fix all errors before submitting"] })
  else
    match post (cleanedQuiz st1.quiz) with
    | .ok data =>
      ({ st1 with isSubmitting := false },
        { console := [data], toasts := ["Quiz created successfully!"],
          requests := [cleanedQuiz st1.quiz], navigations := ["/home"] })
    | .error error =>
      ({ st1 with isSubmitting := false },
        { console := [error], toasts := ["Failed to create quiz. Please try again."],
          requests := [cleanedQuiz st1.quiz], navigations := [] })

/-! ## Sample drafts -/

/-- A backend that accepts every quiz. -/
def quizBackendUp : DraftQuiz → Except String String :=
  fun _ => Except.ok "created"

/-- The untouched form, whose title is empty. -/
def untitledForm : FormState :=
  initialForm "teacher"

/-- The form after `"ab"` has been typed as the title. -/
def shortTitleForm : FormState :=
  updateTitle (initialForm "teacher") " ab "

/-! ## The rendered controls of the form

Every editing handler is installed on a control of a rendered card, so it is called with
the index of an existing question, and of an existing option where it takes one. -/

/-- A user action on a control of the form. -/
inductive FormEvent where
  | addQuestion
  | removeQuestion (qIndex : Nat)
  | addOption (qIndex : Nat)
  | removeOption (qIndex oIndex : Nat)
  | updateQuestionText (qIndex : Nat) (value : String)
  | updateOption (qIndex oIndex : Nat) (value : String)
  | updateCorrectOption (qIndex : Nat) (value : String)
  | updateTitle (value : String)
  deriving DecidableEq, Repr

/-- The control of the event is on screen: the card of question `qIndex` exists, the
remove-question button shows with more than one question (line 247), the remove-option
button with more than two options (line 304), and the correct-answer select offers the
empty choice and the filled options (lines 327-340). -/
def controlRendered (st : FormState) : FormEvent → Bool
  | .addQuestion => true
  | .removeQuestion qIndex =>
    decide (st.quiz.questions.length > 1) && decide (qIndex < st.quiz.questions.length)
  | .addOption qIndex => decide (qIndex < st.quiz.questions.length)
  | .removeOption qIndex oIndex =>
    decide (qIndex < st.quiz.questions.length) &&
      decide ((optionsAt st qIndex).length > 2) && decide (oIndex < (optionsAt st qIndex).length)
  | .updateQuestionText qIndex _ => decide (qIndex < st.quiz.questions.length)
  | .updateOption qIndex oIndex _ =>
    decide (qIndex < st.quiz.questions.length) && decide (oIndex < (optionsAt st qIndex).length)
  | .updateCorrectOption qIndex value =>
    decide (qIndex < st.quiz.questions.length) &&
      (decide (value = "") || (filledOptions (optionsAt st qIndex)).contains value)
  | .updateTitle _ => true

/-- The handler the event runs. -/
def runHandler (st : FormState) : FormEvent → FormState
  | .addQuestion => addQuestion st
  | .removeQuestion qIndex => (removeQuestion st qIndex).1
  | .addOption qIndex => (addOption st qIndex).1
  | .removeOption qIndex oIndex => (removeOption st qIndex oIndex).1
  | .updateQuestionText qIndex value => updateQuestionText st qIndex value
  | .updateOption qIndex oIndex value => updateOption st qIndex oIndex value
  | .updateCorrectOption qIndex value => updateCorrectOption st qIndex value
  | .updateTitle value => updateTitle st value

/-- One user action: the handler runs when its control is on screen. -/
def applyEvent (st : FormState) (event : FormEvent) : FormState :=
  if controlRendered st event then runHandler st event else st

/-- A sequence of user actions, oldest first. -/
def applyEvents (st : FormState) (events : List FormEvent) : FormState :=
  events.foldl applyEvent st

/-- The shape the editing handlers keep: at least one question, and between 2 and 6 option
fields on every question. -/
def WellShaped (st : FormState) : Prop :=
  1 ≤ st.quiz.questions.length ∧
    ∀ q ∈ st.quiz.questions, 2 ≤ q.options.length ∧ q.options.length ≤ 6

/-! ## More sample drafts -/

/-- A question whose two options are the same blank, non-empty string. -/
def blankTwinsQuestion : DraftQuestion :=
  { text := "Capital of France?", options := [" ", " "], correctOption := "Paris" }

/-- A form holding `blankTwinsQuestion`. -/
def blankTwinsForm : FormState :=
  { quiz := { title := "Capitals", username := "teacher", questions := [blankTwinsQuestion] },
    errors := { title := none, questions := [] }, isSubmitting := false }

/-- A form holding the question with options `["Paris", "Paris"]`. -/
def parisTwiceForm : FormState :=
  { quiz := { title := "Capitals", username := "teacher",
              questions := [{ text := "Capital of France?", options := ["Paris", "Paris"],
                              correctOption := "Paris" }] },
    errors := { title := none, questions := [] }, isSubmitting := false }

/-- A form whose question has the single filled option `"Paris"` and the correct option
`"Rome"`. -/
def oneOptionForm : FormState :=
  { quiz := { title := "Capitals", username := "teacher",
              questions := [{ text := "Capital of France?", options := ["Paris", "", "", ""],
                              correctOption := "Rome" }] },
    errors := { title := none, questions := [] }, isSubmitting := false }

/-- A form with a valid title and no question at all. -/
def noQuestionForm : FormState :=
  { quiz := { title := "Capitals", username := "teacher", questions := [] },
    errors := { title := none, questions := [] }, isSubmitting := false }

/-- The actions that fill the first card in with a valid question and leave its last two
options blank. -/
def fillCapitals : List FormEvent :=
  [.updateTitle "Capitals", .updateQuestionText 0 "Capital of France?",
   .updateOption 0 0 "Paris", .updateOption 0 1 "Rome", .updateCorrectOption 0 "Paris"]

/-- The valid form reached by `fillCapitals`. -/
def capitalsForm : FormState :=
  applyEvents (initialForm "teacher") fillCapitals

/-- The actions of an author who types the option `"Paris "` with a trailing space, selects
it as the correct answer and then deletes the trailing space from the option. -/
def fixTrailingSpace : List FormEvent :=
  [.updateTitle "Capitals", .updateQuestionText 0 "Capital of France?",
   .updateOption 0 0 "Paris ", .updateOption 0 1 "Rome", .updateCorrectOption 0 "Paris ",
   .updateOption 0 0 "Paris"]

/-- The form reached by `fixTrailingSpace`. -/
def trailingSpaceForm : FormState :=
  applyEvents (initialForm "teacher") fixTrailingSpace

/-! ## Sequences of handler calls -/

/-- A sequence of answer selections, oldest first: `handleOptionClick` called on each pair
of question id and option. -/
def selectAll (s : QuizState) (clicks : List (Nat × String)) : QuizState :=
  clicks.foldl (fun st click => handleOptionClick st click.1 click.2) s

/-- The selections that answer every question of the quiz with its `correctOption`, in the
order of the questions. -/
def correctClicks (quiz : QuizDetails) : List (Nat × String) :=
  quiz.questions.map fun question => (question.id, question.correctOption)

/-- The array `questions.filter((_, index) => index !== qIndex)` of line 91 as it is
written: the elements are paired with their indices and those at `qIndex` are dropped. -/
def filterOutIndex {α : Type} (l : List α) (qIndex : Nat) : List α :=
  ((l.enum.filter fun entry => decide (entry.1 ≠ qIndex)).map Prod.snd)

/-- The event is a call of `addQuestion` or of `removeQuestion`. -/
def isQuestionListEdit : FormEvent → Bool
  | .addQuestion => true
  | .removeQuestion _ => true
  | _ => false

/-- A sequence of handler calls, oldest first, whether or not a control is on screen for
them. -/
def runHandlers (st : FormState) (events : List FormEvent) : FormState :=
  events.foldl runHandler st

/-- The two-question session after both questions have been answered again, correctly. -/
def twoQuestionRetry : QuizState :=
  selectAll (selectAll twoQuestionSession [(2, "X"), (1, "B")]) (correctClicks twoQuestionQuiz)

end QuizFrontend

/-! # Properties -/

namespace QuizFrontend

/-! ## Lemmas on the ledger -/

theorem lookupAnswer_upsertAnswer_same (l : Ledger) (q : Nat) (o : String) :
    lookupAnswer (upsertAnswer l q o) q = some o := by
  induction l with
  | nil => simp [upsertAnswer, lookupAnswer]
  | cons e rest ih =>
    obtain ⟨k, v⟩ := e
    by_cases h : k = q
    · simp [upsertAnswer, lookupAnswer, h]
    · simp [upsertAnswer, lookupAnswer, h, ih]

theorem lookupAnswer_upsertAnswer_other (l : Ledger) (q k : Nat) (o : String) (hk : k ≠ q) :
    lookupAnswer (upsertAnswer l q o) k = lookupAnswer l k := by
  induction l with
  | nil =>
    have : ¬ q = k := fun h => hk h.symm
    simp [upsertAnswer, lookupAnswer, this]
  | cons e rest ih =>
    obtain ⟨k1, v⟩ := e
    by_cases h : k1 = q
    · have : ¬ k1 = k := fun h2 => hk (h2.symm.trans h)
      simp [upsertAnswer, lookupAnswer, h, this]
      subst h
      simp [this]
    · by_cases h2 : k1 = k
      · subst h2
        simp [upsertAnswer, lookupAnswer, h]
      · simp [upsertAnswer, lookupAnswer, h, h2, ih]

theorem upsertAnswer_upsertAnswer (l : Ledger) (q : Nat) (o o1 : String) :
    upsertAnswer (upsertAnswer l q o) q o1 = upsertAnswer l q o1 := by
  induction l with
  | nil => simp [upsertAnswer]
  | cons e rest ih =>
    obtain ⟨k, v⟩ := e
    by_cases h : k = q
    · simp [upsertAnswer, h]
    · simp [upsertAnswer, h, ih]

/-! ## Lemmas on scoring -/

theorem foldl_count_eq (p : Question → Prop) [DecidablePred p] (qs : List Question) (n : Nat) :
    qs.foldl (fun c q => if p q then c + 1 else c) n = n + qs.countP (fun q => decide (p q)) := by
  induction qs generalizing n with
  | nil => simp
  | cons q rest ih =>
    by_cases h : p q
    · simp [List.foldl_cons, h, ih, List.countP_cons]; omega
    · simp [List.foldl_cons, h, ih, List.countP_cons]

theorem countCorrect_eq_countP (qs : List Question) (l : Ledger) :
    countCorrect qs l =
      qs.countP (fun q => decide (lookupAnswer l q.id = some q.correctOption)) := by
  unfold countCorrect
  rw [foldl_count_eq (fun q => lookupAnswer l q.id = some q.correctOption) qs 0]
  simp

theorem countCorrect_le_length (qs : List Question) (l : Ledger) :
    countCorrect qs l ≤ qs.length := by
  rw [countCorrect_eq_countP]
  exact List.countP_le_length _

/-- The promise of `handleSubmitQuiz` resolves, whatever the backend answers, and the
state it leaves does not depend on that answer. -/
theorem handleSubmitQuiz_resolves (user : User) (post : QuizResult → Except String Unit)
    (s : QuizState) :
    ∃ eff, handleSubmitQuiz user post s =
      Except.ok ({ s with score := countCorrect s.quizDetails.questions s.selectedAnswers,
                          quizCompleted := true, showResults := true }, eff) ∧
      eff.requests = [{ userId := user.id, username := user.username,
                        quizId := s.quizDetails.id, quizTitle := s.quizDetails.title,
                        score := countCorrect s.quizDetails.questions s.selectedAnswers,
                        totalQuestions := s.quizDetails.questions.length,
                        percentage := percentage
                          (countCorrect s.quizDetails.questions s.selectedAnswers)
                          s.quizDetails.questions.length,
                        timeTakenSeconds := none }] := by
  unfold handleSubmitQuiz
  cases h : post { userId := user.id, username := user.username,
                        quizId := s.quizDetails.id, quizTitle := s.quizDetails.title,
                        score := countCorrect s.quizDetails.questions s.selectedAnswers,
                        totalQuestions := s.quizDetails.questions.length,
                        percentage := percentage
                          (countCorrect s.quizDetails.questions s.selectedAnswers)
                          s.quizDetails.questions.length,
                        timeTakenSeconds := none } with
  | error e => simp [h, Except.tryCatch, bind, Except.bind, pure, Except.pure]
  | ok u => simp [h, Except.tryCatch, bind, Except.bind, pure, Except.pure]

/-! ## Lemmas on binary64 rounding -/

theorem log2FloorLoop_spec (fuel n : Nat) (hn : n ≠ 0) (hf : n ≤ fuel) :
    2 ^ log2FloorLoop fuel n ≤ n ∧ n < 2 ^ (log2FloorLoop fuel n + 1) := by
  induction fuel generalizing n with
  | zero => omega
  | succ fuel ih =>
    unfold log2FloorLoop
    by_cases h2 : n < 2
    · simp only [h2, if_true]
      constructor
      · simp; omega
      · simp; omega
    · simp only [h2, if_false]
      have hhalf : n / 2 ≠ 0 := by omega
      have hle : n / 2 ≤ fuel := by omega
      obtain ⟨h1, h3⟩ := ih (n / 2) hhalf hle
      constructor
      · rw [pow_succ]; omega
      · rw [pow_succ]; omega

theorem log2Floor_le (n : Nat) (hn : n ≠ 0) : 2 ^ log2Floor n ≤ n :=
  (log2FloorLoop_spec n n hn (le_refl n)).1

theorem lt_log2Floor (n : Nat) (hn : n ≠ 0) : n < 2 ^ (log2Floor n + 1) :=
  (log2FloorLoop_spec n n hn (le_refl n)).2

theorem roundHalfEven_le (N D K : Nat) (hD : 0 < D) (h : N ≤ K * D) :
    roundHalfEven N D ≤ K := by
  have hdm : D * (N / D) + N % D = N := Nat.div_add_mod N D
  have hq : N / D ≤ K := by
    apply Nat.div_le_of_le_mul
    rw [Nat.mul_comm]; exact h
  have hstep : 0 < N % D → N / D + 1 ≤ K := by
    intro hr
    by_contra hcon
    have hK : N / D = K := by omega
    rw [hK, Nat.mul_comm] at hdm
    omega
  unfold roundHalfEven
  split_ifs with h1 h2 h3
  · exact hq
  · exact hstep (by omega)
  · exact hq
  · exact hstep (by omega)

theorem roundToDouble_le (p q K : Nat) (hq : 0 < q) (hK : K ≤ 2 ^ 52) (h : p ≤ K * q) :
    (roundToDouble p q).1 ≤ K * (roundToDouble p q).2 ∧ 0 < (roundToDouble p q).2 := by
  unfold roundToDouble
  by_cases hp : p = 0
  · simp [hp]
  · simp only [hp, if_false]
    have hlp : 2 ^ log2Floor p ≤ p := log2Floor_le p hp
    have hlq : q < 2 ^ (log2Floor q + 1) := lt_log2Floor q (by omega)
    have hlt : 2 ^ log2Floor p < 2 ^ (53 + log2Floor q) := by
      calc 2 ^ log2Floor p ≤ p := hlp
        _ ≤ K * q := h
        _ ≤ 2 ^ 52 * q := Nat.mul_le_mul_right q hK
        _ < 2 ^ 52 * 2 ^ (log2Floor q + 1) := Nat.mul_lt_mul_of_pos_left hlq (by positivity)
        _ = 2 ^ (53 + log2Floor q) := by rw [← pow_add]; congr 1; omega
    have hexp : log2Floor p < 53 + log2Floor q := (Nat.pow_lt_pow_iff_right (by norm_num)).1 hlt
    refine ⟨?_, by positivity⟩
    generalize hb : (if 2 ^ 52 * (q * 2 ^ (log2Floor p + 1)) ≤ p * 2 ^ (53 + log2Floor q)
      then log2Floor p + 1 else log2Floor p) = b
    have hba : b ≤ 53 + log2Floor q := by
      rw [← hb]; split_ifs <;> omega
    obtain ⟨d, hd⟩ := Nat.exists_eq_add_of_le hba
    have hsplit : 2 ^ (53 + log2Floor q) = 2 ^ d * 2 ^ b := by
      rw [hd, Nat.add_comm b d, pow_add]
    have hm : roundHalfEven (p * 2 ^ (53 + log2Floor q)) (q * 2 ^ b) ≤ K * 2 ^ d := by
      apply roundHalfEven_le
      · positivity
      · calc p * 2 ^ (53 + log2Floor q) ≤ K * q * 2 ^ (53 + log2Floor q) :=
              Nat.mul_le_mul_right _ h
          _ = K * 2 ^ d * (q * 2 ^ b) := by rw [hsplit]; ring
    calc roundHalfEven (p * 2 ^ (53 + log2Floor q)) (q * 2 ^ b) * 2 ^ b
        ≤ K * 2 ^ d * 2 ^ b := Nat.mul_le_mul_right _ hm
      _ = K * 2 ^ (53 + log2Floor q) := by rw [hsplit]; ring

theorem percentage_le_100 (c n : Nat) (hn : 0 < n) (hc : c ≤ n) :
    ∃ p, percentage c n = some p ∧ p ≤ 100 := by
  have hn0 : n ≠ 0 := by omega
  obtain ⟨hx, hxpos⟩ := roundToDouble_le c n 1 hn (by norm_num) (by omega)
  obtain ⟨hy, hypos⟩ := roundToDouble_le ((roundToDouble c n).1 * 100) (roundToDouble c n).2 100
    hxpos (by norm_num) (by omega)
  refine ⟨_, by simp only [percentage, hn0, if_false]; rfl, ?_⟩
  unfold mathRound
  apply Nat.le_of_lt_succ
  rw [Nat.div_lt_iff_lt_mul (by omega)]
  omega

/-! ## Lemmas on the controls -/

theorem canProceed_of_unanswered (s : QuizState) (q : Question)
    (hq : s.quizDetails.questions[s.currentQuestion]? = some q)
    (hun : lookupAnswer s.selectedAnswers q.id = none) : canProceed s = false := by
  simp [canProceed, hq, hun]

theorem canProceed_of_answered (s : QuizState) (q : Question) (answer : String)
    (hq : s.quizDetails.questions[s.currentQuestion]? = some q)
    (ha : lookupAnswer s.selectedAnswers q.id = some answer) (hne : answer ≠ "") :
    canProceed s = true := by
  have hdata : answer.data ≠ [] := by
    intro h
    apply hne
    cases answer
    simp_all
  simp [canProceed, hq, ha, jsTruthy, hdata]

theorem quizViewRendered_of_question (s : QuizState) (q : Question)
    (hprog : s.showResults = false)
    (hq : s.quizDetails.questions[s.currentQuestion]? = some q) :
    quizViewRendered s = true := by
  have hlt : s.currentQuestion < s.quizDetails.questions.length := by
    by_contra hcon
    rw [List.getElem?_eq_none (by omega)] at hq
    exact Option.noConfusion hq
  simp [quizViewRendered, hprog]
  omega

end QuizFrontend

namespace QuizFrontend

/-! ## Scoring -/

/-- C1: `handleSubmitQuiz` always resolves and sets the score to the number of questions
whose id has a ledger entry equal, as a string, to the question's `correctOption`;
questions without a ledger entry add nothing, so the score is the same as on the quiz
restricted to the answered questions. In the scenario of two questions with correct
answers `"A"` and `"C"` and a ledger holding `"A"` and `"X"`, the score is 1 and the
percentage 50. -/
theorem handleSubmitQuiz_score_counts_exact_matches (user : User)
    (post : QuizResult → Except String Unit) (s : QuizState) :
    (∃ st eff, handleSubmitQuiz user post s = Except.ok (st, eff) ∧
      st.score = s.quizDetails.questions.countP
        (fun q => decide (lookupAnswer s.selectedAnswers q.id = some q.correctOption)) ∧
      st.score =
        (s.quizDetails.questions.filter
          (fun q => (lookupAnswer s.selectedAnswers q.id).isSome)).countP
        (fun q => decide (lookupAnswer s.selectedAnswers q.id = some q.correctOption))) ∧
    (∃ st eff, handleSubmitQuiz user post twoQuestionSession = Except.ok (st, eff) ∧
      st.score = 1 ∧ eff.requests.map (fun r => (r.score, r.percentage)) = [(1, some 50)]) := by
  constructor
  · obtain ⟨eff, h, _⟩ := handleSubmitQuiz_resolves user post s
    refine ⟨_, eff, h, countCorrect_eq_countP _ _, ?_⟩
    show countCorrect _ _ = _
    rw [countCorrect_eq_countP, List.countP_filter]
    apply List.countP_congr
    intro q _
    cases hl : lookupAnswer s.selectedAnswers q.id <;> simp
  · obtain ⟨eff, h, hr⟩ := handleSubmitQuiz_resolves user post twoQuestionSession
    refine ⟨_, eff, h, by decide, ?_⟩
    rw [hr]
    simp only [List.map_cons, List.map_nil]
    decide

/-- C2, evaluated on the code: on a quiz of 40 questions with 23 correct answers
`handleSubmitQuiz` posts the percentage 57, and on 200 questions with 29 correct answers
it posts 14, whereas `100 * score / totalQuestions` rounded half up is 58 and 15. The
quotients `23 / 40` and `29 / 200` are rounded down to binary64 and their products with
`100` fall just below the ties `57.5` and `14.5`. -/
theorem handleSubmitQuiz_percentage_misses_ties :
    (requestsOf (handleSubmitQuiz sampleUser backendUp (yesNoSession 23 40))).map
        (fun r => (r.score, r.totalQuestions, r.percentage)) = [(23, 40, some 57)] ∧
    specPercentage 23 40 = 58 ∧
    percentage 29 200 = some 14 ∧
    specPercentage 29 200 = 15 ∧
    percentage 1 8 = some 13 := by
  refine ⟨by decide, by decide, by decide, by decide, by decide⟩

/-- C3: on a quiz with at least one question the Quiz Result built by `handleSubmitQuiz`
has `totalQuestions` equal to the number of questions, a score between 0 and
`totalQuestions` (the score also stored in the state), and a percentage that is an
integer between 0 and 100. -/
theorem handleSubmitQuiz_result_in_range (user : User)
    (post : QuizResult → Except String Unit) (s : QuizState)
    (hn : 0 < s.quizDetails.questions.length) :
    ∃ st eff r p, handleSubmitQuiz user post s = Except.ok (st, eff) ∧
      eff.requests = [r] ∧
      r.totalQuestions = s.quizDetails.questions.length ∧
      r.score = st.score ∧ 0 ≤ r.score ∧ r.score ≤ r.totalQuestions ∧
      r.percentage = some p ∧ 0 ≤ p ∧ p ≤ 100 := by
  obtain ⟨eff, h, hr⟩ := handleSubmitQuiz_resolves user post s
  obtain ⟨p, hp, hp100⟩ := percentage_le_100
    (countCorrect s.quizDetails.questions s.selectedAnswers) s.quizDetails.questions.length hn
    (countCorrect_le_length _ _)
  exact ⟨_, eff, _, p, h, hr, rfl, rfl, Nat.zero_le _, countCorrect_le_length _ _, hp,
    Nat.zero_le _, hp100⟩

/-- Witness of C3 on the two-question session. -/
theorem handleSubmitQuiz_result_in_range_witness :
    0 < twoQuestionSession.quizDetails.questions.length ∧
    ∃ st eff r p, handleSubmitQuiz sampleUser backendDown twoQuestionSession =
        Except.ok (st, eff) ∧
      eff.requests = [r] ∧
      r.totalQuestions = twoQuestionSession.quizDetails.questions.length ∧
      r.score = st.score ∧ 0 ≤ r.score ∧ r.score ≤ r.totalQuestions ∧
      r.percentage = some p ∧ 0 ≤ p ∧ p ≤ 100 :=
  ⟨by decide,
   handleSubmitQuiz_result_in_range sampleUser backendDown twoQuestionSession (by decide)⟩

/-! ## Navigation -/

/-- C4: in a session whose ledger has no entry for the question under the cursor, in
progress in particular, a click on the Next button (disabled by `canProceed`) changes
nothing: cursor, ledger, score and completion flags are those of before and nothing is
emitted. -/
theorem clickNext_denied_when_unanswered (user : User)
    (post : QuizResult → Except String Unit) (s : QuizState) (q : Question)
    (hq : s.quizDetails.questions[s.currentQuestion]? = some q)
    (hun : lookupAnswer s.selectedAnswers q.id = none) :
    clickNext user post s = Except.ok (s, noEffects) := by
  simp [clickNext, canProceed_of_unanswered s q hq hun, pure, Except.pure]

/-- Witness of C4: three questions, the first two answered, cursor on the third; the
session stays `InProgress(2)`. -/
theorem clickNext_denied_when_unanswered_witness :
    threeQuestionSession.showResults = false ∧
    threeQuestionSession.quizDetails.questions[threeQuestionSession.currentQuestion]? =
      some { id := 3, text := "Capital of Spain?", options := ["Madrid", "Rome"],
             correctOption := "Madrid" } ∧
    lookupAnswer threeQuestionSession.selectedAnswers 3 = none ∧
    clickNext sampleUser backendUp threeQuestionSession =
      Except.ok (threeQuestionSession, noEffects) ∧
    phase threeQuestionSession = Phase.inProgress 2 :=
  ⟨rfl, rfl, rfl,
   clickNext_denied_when_unanswered sampleUser backendUp threeQuestionSession
     { id := 3, text := "Capital of Spain?", options := ["Madrid", "Rome"],
       correctOption := "Madrid" } rfl rfl,
   rfl⟩

/-- C5 as stated fails when the recorded answer is the empty string, which `canProceed`
takes for no answer. On the one-question quiz whose first option is `""`, a click on that
option records it for the current, last question; the session is in progress and the click
on Next sends nothing and leaves it `InProgress(0)` instead of completing it. On the
two-question quiz the same click on Next leaves the cursor on the first question instead of
moving it to the second. -/
theorem clickNext_denied_when_answer_is_empty_string :
    (blankAnswerSession.showResults = false ∧
      blankAnswerSession.quizDetails.questions[blankAnswerSession.currentQuestion]? =
        some { id := 4, text := "Which one is empty?", options := ["", "b"],
               correctOption := "" } ∧
      lookupAnswer blankAnswerSession.selectedAnswers 4 = some "" ∧
      blankAnswerSession.currentQuestion + 1 =
        blankAnswerSession.quizDetails.questions.length ∧
      nextState (clickNext sampleUser backendUp blankAnswerSession) =
        some blankAnswerSession ∧
      requestsOf (clickNext sampleUser backendUp blankAnswerSession) = [] ∧
      (nextState (clickNext sampleUser backendUp blankAnswerSession)).map phase =
        some (Phase.inProgress 0)) ∧
    (blankFirstSession.showResults = false ∧
      blankFirstSession.quizDetails.questions[blankFirstSession.currentQuestion]? =
        some { id := 4, text := "Which one is empty?", options := ["", "b"],
               correctOption := "" } ∧
      lookupAnswer blankFirstSession.selectedAnswers 4 = some "" ∧
      blankFirstSession.currentQuestion + 1 <
        blankFirstSession.quizDetails.questions.length ∧
      (nextState (clickNext sampleUser backendUp blankFirstSession)).map
        (fun st => st.currentQuestion) = some 0) := by
  refine ⟨⟨rfl, rfl, rfl, by decide, by decide, by decide, by decide⟩,
    rfl, rfl, rfl, by decide, by decide⟩

/-- C5, amended: in an in-progress session whose current question has a recorded answer
that is a non-empty string, a click on Next moves the cursor forward by exactly one and
completes nothing when the cursor is before the last question; on the last question it
keeps the cursor, runs `handleSubmitQuiz` and shows the session as `Completed` with the
computed score. -/
theorem clickNext_advances_or_submits (user : User)
    (post : QuizResult → Except String Unit) (s : QuizState) (q : Question)
    (answer : String)
    (hprog : s.showResults = false)
    (hq : s.quizDetails.questions[s.currentQuestion]? = some q)
    (ha : lookupAnswer s.selectedAnswers q.id = some answer)
    (hne : answer ≠ "") :
    1 ≤ s.quizDetails.questions.length ∧
    (s.currentQuestion + 1 < s.quizDetails.questions.length →
      clickNext user post s =
        Except.ok ({ s with currentQuestion := s.currentQuestion + 1 }, noEffects) ∧
      phase { s with currentQuestion := s.currentQuestion + 1 } =
        Phase.inProgress (s.currentQuestion + 1)) ∧
    (s.currentQuestion + 1 = s.quizDetails.questions.length →
      ∃ st eff, clickNext user post s = Except.ok (st, eff) ∧
        handleSubmitQuiz user post s = Except.ok (st, eff) ∧
        st.currentQuestion = s.currentQuestion ∧
        st.quizCompleted = true ∧ st.showResults = true ∧
        st.score = countCorrect s.quizDetails.questions s.selectedAnswers ∧
        phase st = Phase.completed
          (countCorrect s.quizDetails.questions s.selectedAnswers)
          (percentage (countCorrect s.quizDetails.questions s.selectedAnswers)
            s.quizDetails.questions.length)) := by
  have hview := quizViewRendered_of_question s q hprog hq
  have hcan := canProceed_of_answered s q answer hq ha hne
  have hlen : 0 < s.quizDetails.questions.length := by
    simp [quizViewRendered] at hview
    omega
  refine ⟨hlen, ?_, ?_⟩
  · intro hlt
    have hint : (s.currentQuestion : Int) < (s.quizDetails.questions.length : Int) - 1 := by
      omega
    refine ⟨?_, ?_⟩
    · simp [clickNext, hview, hcan, handleNextQuestion, hint, pure, Except.pure]
    · simp [phase, hprog]
  · intro hlast
    have hint : ¬ (s.currentQuestion : Int) < (s.quizDetails.questions.length : Int) - 1 := by
      omega
    obtain ⟨eff, h, _⟩ := handleSubmitQuiz_resolves user post s
    refine ⟨_, eff, ?_, h, rfl, rfl, rfl, rfl, ?_⟩
    · simp [clickNext, hview, hcan, handleNextQuestion, hint, h]
    · simp [phase]

/-- Witness of C5: on a one-question quiz, answering correctly and clicking Next goes
straight to `Completed(1, 100)`. -/
theorem clickNext_advances_or_submits_witness :
    (clickOption (initialState oneQuestionQuiz) 1).showResults = false ∧
    lookupAnswer (clickOption (initialState oneQuestionQuiz) 1).selectedAnswers 5 = some "4" ∧
    "4" ≠ "" ∧
    (nextState (clickNext sampleUser backendUp
      (clickOption (initialState oneQuestionQuiz) 1))).map phase =
      some (Phase.completed 1 (some 100)) := by
  refine ⟨rfl, rfl, by decide, ?_⟩
  obtain ⟨st, eff, h, _, _, _, _, _, hphase⟩ :=
    (clickNext_advances_or_submits sampleUser backendUp
      (clickOption (initialState oneQuestionQuiz) 1)
      { id := 5, text := "What is 2 + 2?", options := ["3", "4"], correctOption := "4" }
      "4" rfl rfl rfl (by decide)).2.2 rfl
  rw [h]
  simp only [nextState, Option.map_some', hphase]
  decide

/-- C6: `handlePreviousQuestion` moves the cursor back by exactly one when it is past the
first question and changes nothing when it is on the first question; in both cases the
ledger is the one of before. The Previous button, when rendered, does the same. -/
theorem handlePreviousQuestion_steps_back_keeps_ledger (s : QuizState) :
    (0 < s.currentQuestion →
      handlePreviousQuestion s = { s with currentQuestion := s.currentQuestion - 1 } ∧
      (handlePreviousQuestion s).currentQuestion + 1 = s.currentQuestion) ∧
    (s.currentQuestion = 0 → handlePreviousQuestion s = s) ∧
    (handlePreviousQuestion s).selectedAnswers = s.selectedAnswers ∧
    (quizViewRendered s = true → clickPrevious s = handlePreviousQuestion s) := by
  refine ⟨?_, ?_, ?_, ?_⟩
  · intro h
    have : (handlePreviousQuestion s) = { s with currentQuestion := s.currentQuestion - 1 } := by
      simp [handlePreviousQuestion, h]
    refine ⟨this, ?_⟩
    rw [this]
    show s.currentQuestion - 1 + 1 = s.currentQuestion
    omega
  · intro h
    simp [handlePreviousQuestion, h]
  · unfold handlePreviousQuestion
    split_ifs <;> rfl
  · intro hview
    unfold clickPrevious
    by_cases h0 : s.currentQuestion = 0
    · simp [hview, h0, handlePreviousQuestion]
    · simp [hview, h0]

/-- Witness of C6: from the third question of the three-question session the cursor
goes to the second and the two recorded answers stay. -/
theorem handlePreviousQuestion_steps_back_keeps_ledger_witness :
    0 < threeQuestionSession.currentQuestion ∧
    (handlePreviousQuestion threeQuestionSession).currentQuestion = 1 ∧
    (handlePreviousQuestion threeQuestionSession).selectedAnswers =
      [(1, "Paris"), (2, "Paris")] ∧
    handlePreviousQuestion (initialState threeQuestionQuiz) = initialState threeQuestionQuiz :=
  ⟨by decide,
   by
     have h := ((handlePreviousQuestion_steps_back_keeps_ledger threeQuestionSession).1
       (by decide)).2
     exact Nat.succ.inj h,
   (handlePreviousQuestion_steps_back_keeps_ledger threeQuestionSession).2.2.1,
   (handlePreviousQuestion_steps_back_keeps_ledger (initialState threeQuestionQuiz)).2.1 rfl⟩

/-! ## The answer ledger -/

/-- C7: selecting the same option for the same question twice in a row leaves the same
ledger, and the same state, as selecting it once. -/
theorem handleOptionClick_idempotent (s : QuizState) (q : Nat) (o : String) :
    handleOptionClick (handleOptionClick s q o) q o = handleOptionClick s q o ∧
    upsertAnswer (upsertAnswer s.selectedAnswers q o) q o = upsertAnswer s.selectedAnswers q o := by
  have h := upsertAnswer_upsertAnswer s.selectedAnswers q o o
  exact ⟨by simp [handleOptionClick, h], h⟩

/-- C8: after `handleOptionClick(q, o)` the ledger maps `q` to `o`, whatever it held for
`q` before; the entry of every other id is the one of before; every id that had an entry
still has one; the cursor and the rest of the state are unchanged. -/
theorem handleOptionClick_upserts (s : QuizState) (q : Nat) (o : String) :
    lookupAnswer (handleOptionClick s q o).selectedAnswers q = some o ∧
    (∀ k, k ≠ q →
      lookupAnswer (handleOptionClick s q o).selectedAnswers k =
        lookupAnswer s.selectedAnswers k) ∧
    (∀ k, (lookupAnswer s.selectedAnswers k).isSome = true →
      (lookupAnswer (handleOptionClick s q o).selectedAnswers k).isSome = true) ∧
    (handleOptionClick s q o).currentQuestion = s.currentQuestion ∧
    handleOptionClick s q o =
      { s with selectedAnswers := upsertAnswer s.selectedAnswers q o } := by
  refine ⟨lookupAnswer_upsertAnswer_same _ _ _,
    fun k hk => lookupAnswer_upsertAnswer_other _ _ _ _ hk, ?_, rfl, rfl⟩
  intro k hk
  by_cases h : k = q
  · subst h
    show (lookupAnswer (upsertAnswer s.selectedAnswers k o) k).isSome = true
    rw [lookupAnswer_upsertAnswer_same]
    rfl
  · show (lookupAnswer (upsertAnswer s.selectedAnswers q o) k).isSome = true
    rw [lookupAnswer_upsertAnswer_other _ _ _ _ h]
    exact hk

/-- Witness of C8: changing the answer of question 2 of the three-question session from
`"Paris"` to `"Rome"` keeps the answer of question 1 and the cursor. -/
theorem handleOptionClick_upserts_witness :
    (1 : Nat) ≠ 2 ∧
    (lookupAnswer threeQuestionSession.selectedAnswers 1).isSome = true ∧
    lookupAnswer (handleOptionClick threeQuestionSession 2 "Rome").selectedAnswers 2 =
      some "Rome" ∧
    lookupAnswer (handleOptionClick threeQuestionSession 2 "Rome").selectedAnswers 1 =
      lookupAnswer threeQuestionSession.selectedAnswers 1 ∧
    (lookupAnswer (handleOptionClick threeQuestionSession 2 "Rome").selectedAnswers 1).isSome =
      true ∧
    (handleOptionClick threeQuestionSession 2 "Rome").currentQuestion = 2 :=
  ⟨by decide, rfl,
   (handleOptionClick_upserts threeQuestionSession 2 "Rome").1,
   (handleOptionClick_upserts threeQuestionSession 2 "Rome").2.1 1 (by decide),
   (handleOptionClick_upserts threeQuestionSession 2 "Rome").2.2.1 1 rfl,
   (handleOptionClick_upserts threeQuestionSession 2 "Rome").2.2.2.1⟩

/-! ## Persistence -/

/-- C9: whatever the backend answers to the post, success or failure, the promise of
`handleSubmitQuiz` resolves (no error reaches the caller) and the state it leaves is the
same: the computed score with `quizCompleted` and `showResults` set. -/
theorem handleSubmitQuiz_state_independent_of_post (user : User)
    (post post1 : QuizResult → Except String Unit) (s : QuizState) :
    ∃ st eff eff1,
      handleSubmitQuiz user post s = Except.ok (st, eff) ∧
      handleSubmitQuiz user post1 s = Except.ok (st, eff1) ∧
      st.score = countCorrect s.quizDetails.questions s.selectedAnswers ∧
      st.quizCompleted = true ∧ st.showResults = true ∧
      eff.requests = eff1.requests := by
  obtain ⟨eff, h, hr⟩ := handleSubmitQuiz_resolves user post s
  obtain ⟨eff1, h1, hr1⟩ := handleSubmitQuiz_resolves user post1 s
  exact ⟨_, eff, eff1, h, h1, rfl, rfl, rfl, hr.trans hr1.symm⟩

end QuizFrontend

namespace QuizFrontend

/-! ## Lemmas on strings -/

theorem jsTruthy_eq_false_iff (s : String) : jsTruthy s = false ↔ jsLength s = 0 := by
  cases s with
  | mk data =>
    cases data with
    | nil => simp [jsTruthy, jsLength]
    | cons c rest =>
      simp only [jsTruthy, jsLength, List.isEmpty_cons, Bool.not_false, List.map_cons,
        List.sum_cons]
      constructor
      · intro h; exact Bool.noConfusion h
      · intro h
        split_ifs at h <;> omega

theorem jsTruthy_eq_true_iff (s : String) : jsTruthy s = true ↔ 0 < jsLength s := by
  have h := jsTruthy_eq_false_iff s
  cases ht : jsTruthy s
  · simp [h.1 ht]
  · constructor
    · intro _
      by_contra hcon
      have h0 : jsLength s = 0 := by omega
      rw [h.2 h0] at ht
      exact Bool.noConfusion ht
    · intro _; rfl

/-- A title error makes the report non-empty, so nothing is posted. -/
theorem handleSubmit_of_title_error (post : DraftQuiz → Except String String) (st : FormState)
    (msg : String) (h : validateTitle st.quiz.title = some msg) :
    (validateQuiz st).2 = false ∧
    handleSubmit post st =
      ((validateQuiz st).1,
        { noFormEffects with toasts := ["Please fix all errors before submitting"] }) := by
  have hv : (validateQuiz st).2 = false := by
    simp [validateQuiz, quizErrors, FormErrors.isEmpty, h]
  refine ⟨hv, ?_⟩
  unfold handleSubmit
  rw [show validateQuiz st = ((validateQuiz st).1, (validateQuiz st).2) from rfl]
  simp [hv]

/-! ## Title validation -/

/-- C10 as stated fails on the untouched form: its title is empty, which is fewer than
three characters after trimming, and the title error reported is "Quiz title is required",
not the `TitleTooShort` message. -/
theorem validateQuiz_empty_title_reports_missing_title :
    jsLength (jsTrim untitledForm.quiz.title) < 3 ∧
    (validateQuiz untitledForm).1.errors.title = some "Quiz title is required" ∧
    (validateQuiz untitledForm).1.errors.title ≠
      some "Quiz title must be at least 3 characters long" := by
  decide

/-- C10, amended: for a draft whose trimmed title has fewer than three characters (UTF-16
code units), `validateQuiz` reports "Quiz title must be at least 3 characters long" when
the trimmed title has one or two characters and "Quiz title is required" when it is
empty; in both cases the report is not empty and `handleSubmit` sends nothing to the
backend, whatever the backend would answer. -/
theorem validateQuiz_short_title_blocks_submit (post : DraftQuiz → Except String String)
    (st : FormState) (h : jsLength (jsTrim st.quiz.title) < 3) :
    (0 < jsLength (jsTrim st.quiz.title) →
      (validateQuiz st).1.errors.title =
        some "Quiz title must be at least 3 characters long") ∧
    (jsLength (jsTrim st.quiz.title) = 0 →
      (validateQuiz st).1.errors.title = some "Quiz title is required") ∧
    (validateQuiz st).2 = false ∧
    (handleSubmit post st).2.requests = [] ∧
    (handleSubmit post st).2.navigations = [] := by
  have hshort : 0 < jsLength (jsTrim st.quiz.title) →
      validateTitle st.quiz.title = some msgTitleTooShort := by
    intro hpos
    have ht := (jsTruthy_eq_true_iff _).2 hpos
    simp [validateTitle, ht, h]
  have hempty : jsLength (jsTrim st.quiz.title) = 0 →
      validateTitle st.quiz.title = some msgTitleRequired := by
    intro h0
    have ht := (jsTruthy_eq_false_iff _).2 h0
    simp [validateTitle, ht]
  have hsome : ∃ msg, validateTitle st.quiz.title = some msg := by
    by_cases h0 : jsLength (jsTrim st.quiz.title) = 0
    · exact ⟨_, hempty h0⟩
    · exact ⟨_, hshort (by omega)⟩
  obtain ⟨msg, hmsg⟩ := hsome
  obtain ⟨hv, hs⟩ := handleSubmit_of_title_error post st msg hmsg
  refine ⟨fun hpos => hshort hpos, fun h0 => hempty h0, hv, ?_, ?_⟩
  · rw [hs]; rfl
  · rw [hs]; rfl

/-- Witness of C10: the title `" ab "` has two characters once trimmed. -/
theorem validateQuiz_short_title_blocks_submit_witness :
    jsLength (jsTrim shortTitleForm.quiz.title) < 3 ∧
    0 < jsLength (jsTrim shortTitleForm.quiz.title) ∧
    (validateQuiz shortTitleForm).1.errors.title =
      some "Quiz title must be at least 3 characters long" ∧
    (handleSubmit quizBackendUp shortTitleForm).2.requests = [] :=
  ⟨by decide, by decide,
   (validateQuiz_short_title_blocks_submit quizBackendUp shortTitleForm (by decide)).1
     (by decide),
   (validateQuiz_short_title_blocks_submit quizBackendUp shortTitleForm (by decide)).2.2.2.1⟩

end QuizFrontend

namespace QuizFrontend

/-! ## Lemmas on the validation report -/

theorem validateQuestions_keys_ge (k : Nat) (qs : List DraftQuestion) :
    ∀ entry ∈ validateQuestions k qs, k ≤ entry.1 := by
  induction qs generalizing k with
  | nil => intro entry h; simp [validateQuestions] at h
  | cons q rest ih =>
    intro entry h
    unfold validateQuestions at h
    split_ifs at h
    · rcases List.mem_cons.1 h with h1 | h1
      · rw [h1]
      · exact Nat.le_of_succ_le (ih (k + 1) entry h1)
    · exact Nat.le_of_succ_le (ih (k + 1) entry h)

theorem find_validateQuestions_lt (k j : Nat) (qs : List DraftQuestion) (h : j < k) :
    (validateQuestions k qs).find? (fun entry => decide (entry.1 = j)) = none := by
  rw [List.find?_eq_none]
  intro entry hmem
  have := validateQuestions_keys_ge k qs entry hmem
  simp
  omega

/-- The entry `question_<k + i>` of the report is the error object of question `i`, present
exactly when that object has a key. -/
theorem find_validateQuestions (k i : Nat) (qs : List DraftQuestion) :
    ((validateQuestions k qs).find? (fun entry => decide (entry.1 = k + i))).map Prod.snd =
      (qs[i]?).bind
        (fun q => if (validateQuestion q).nonEmpty then some (validateQuestion q) else none) := by
  induction qs generalizing k i with
  | nil => simp [validateQuestions]
  | cons q rest ih =>
    cases i with
    | zero =>
      unfold validateQuestions
      by_cases hne : (validateQuestion q).nonEmpty = true
      · simp [hne]
      · simp only [hne, Bool.false_eq_true, if_false, Nat.add_zero, List.getElem?_cons_zero,
          Option.some_bind]
        rw [find_validateQuestions_lt (k + 1) k rest (Nat.lt_succ_self k)]
        rfl
    | succ j =>
      have hidx : k + (j + 1) = (k + 1) + j := by omega
      have hrest := ih (k + 1) j
      unfold validateQuestions
      by_cases hne : (validateQuestion q).nonEmpty = true
      · have hk : ¬ k = k + (j + 1) := by omega
        simp only [hne, if_true, List.getElem?_cons_succ]
        rw [List.find?_cons_of_neg _ (by simp), hidx]
        exact hrest
      · simp only [hne, Bool.false_eq_true, if_false, List.getElem?_cons_succ]
        rw [hidx]
        exact hrest

/-- The report read at `question_<i>` after `validateQuiz`. -/
theorem questionErrorsAt_validateQuiz (st : FormState) (i : Nat) :
    questionErrorsAt (validateQuiz st).1.errors i =
      (st.quiz.questions[i]?).bind
        (fun q => if (validateQuestion q).nonEmpty then some (validateQuestion q) else none) := by
  have h := find_validateQuestions 0 i st.quiz.questions
  rw [Nat.zero_add] at h
  exact h

theorem validateQuestions_eq_nil (k : Nat) (qs : List DraftQuestion) :
    validateQuestions k qs = [] ↔ ∀ q ∈ qs, (validateQuestion q).nonEmpty = false := by
  induction qs generalizing k with
  | nil => simp [validateQuestions]
  | cons q rest ih =>
    unfold validateQuestions
    by_cases hne : (validateQuestion q).nonEmpty = true
    · simp [hne]
    · simp only [hne, Bool.false_eq_true, if_false, List.mem_cons, forall_eq_or_imp]
      rw [ih (k + 1)]
      simp [hne]

theorem dedup_length_eq_iff (l : List String) : l.dedup.length = l.length ↔ l.Nodup := by
  constructor
  · intro h
    have := (List.dedup_sublist l).eq_of_length h
    exact List.dedup_eq_self.1 this
  · intro h
    rw [List.dedup_eq_self.2 h]

theorem nodup_of_length_lt_two (l : List String) (h : l.length < 2) : l.Nodup := by
  match l, h with
  | [], _ => exact List.nodup_nil
  | [a], _ => exact List.nodup_singleton a
  | _ :: _ :: _, h => exact absurd h (by simp)

theorem filledOptions_mem (options : List String) (o : String) :
    o ∈ filledOptions options ↔ o ∈ options ∧ jsTruthy (jsTrim o) = true := by
  simp [filledOptions, List.mem_filter]

theorem validateQuestion_text (q : DraftQuestion) :
    (validateQuestion q).text =
      if jsLength (jsTrim q.text) = 0 then some msgTextRequired
      else if jsLength (jsTrim q.text) < 5 then some msgTextTooShort
      else none := by
  by_cases h0 : jsLength (jsTrim q.text) = 0
  · have ht := (jsTruthy_eq_false_iff _).2 h0
    simp [validateQuestion, ht, h0]
  · have ht := (jsTruthy_eq_true_iff _).2 (Nat.pos_of_ne_zero h0)
    simp [validateQuestion, ht, h0]

theorem validateQuestion_options (q : DraftQuestion) :
    (validateQuestion q).options =
      if ¬ (filledOptions q.options).Nodup then some msgDuplicateOptions
      else if (filledOptions q.options).length < 2 then some msgTooFewOptions
      else none := by
  by_cases hnd : (filledOptions q.options).Nodup
  · have := (dedup_length_eq_iff _).2 hnd
    simp [validateQuestion, this, hnd]
  · have : ¬ (filledOptions q.options).dedup.length = (filledOptions q.options).length :=
      fun h => hnd ((dedup_length_eq_iff _).1 h)
    simp [validateQuestion, this, hnd]

theorem validateQuestion_correctOption (q : DraftQuestion) :
    (validateQuestion q).correctOption =
      if jsTruthy (jsTrim q.correctOption) = false then some msgCorrectRequired
      else if jsTrim q.correctOption ∉ filledOptions q.options then some msgCorrectMismatch
      else none := by
  by_cases ht : jsTruthy (jsTrim q.correctOption) = true
  · by_cases hm : jsTrim q.correctOption ∈ filledOptions q.options
    · simp [validateQuestion, ht, hm]
    · simp [validateQuestion, ht, hm]
  · simp at ht
    simp [validateQuestion, ht]

/-- A question is free of errors exactly when each of its three checks passes. -/
theorem validateQuestion_nonEmpty_eq_false (q : DraftQuestion) :
    (validateQuestion q).nonEmpty = false ↔
      5 ≤ jsLength (jsTrim q.text) ∧
      2 ≤ (filledOptions q.options).length ∧
      (filledOptions q.options).Nodup ∧
      jsTruthy (jsTrim q.correctOption) = true ∧
      jsTrim q.correctOption ∈ filledOptions q.options := by
  unfold QuestionErrors.nonEmpty
  rw [validateQuestion_text, validateQuestion_options, validateQuestion_correctOption]
  constructor
  · intro h
    simp only [Bool.or_eq_false_iff] at h
    obtain ⟨⟨h1, h2⟩, h3⟩ := h
    refine ⟨?_, ?_, ?_, ?_, ?_⟩
    · by_contra hc
      split_ifs at h1 <;> first | omega | simp at h1
    · by_contra hc
      split_ifs at h2 <;> first | omega | simp at h2
    · by_contra hc
      simp [hc] at h2
    · by_contra hc
      simp at hc
      simp [hc] at h3
    · by_contra hc
      split_ifs at h3 <;> simp at h3
  · rintro ⟨h1, h2, h3, h4, h5⟩
    have h10 : ¬ jsLength (jsTrim q.text) = 0 := by omega
    have h11 : ¬ jsLength (jsTrim q.text) < 5 := by omega
    have h21 : ¬ (filledOptions q.options).length < 2 := by omega
    simp [h10, h11, h21, h3, h4, h5]

/-- The verdict of `validateQuiz`: the title and every question pass their checks. -/
theorem validateQuiz_eq_true_iff (st : FormState) :
    (validateQuiz st).2 = true ↔
      3 ≤ jsLength (jsTrim st.quiz.title) ∧
      ∀ q ∈ st.quiz.questions,
        5 ≤ jsLength (jsTrim q.text) ∧
        2 ≤ (filledOptions q.options).length ∧
        (filledOptions q.options).Nodup ∧
        jsTruthy (jsTrim q.correctOption) = true ∧
        jsTrim q.correctOption ∈ filledOptions q.options := by
  have htitle : validateTitle st.quiz.title = none ↔ 3 ≤ jsLength (jsTrim st.quiz.title) := by
    unfold validateTitle
    by_cases h0 : jsLength (jsTrim st.quiz.title) = 0
    · have ht := (jsTruthy_eq_false_iff _).2 h0
      simp [ht]; omega
    · have ht := (jsTruthy_eq_true_iff _).2 (Nat.pos_of_ne_zero h0)
      simp [ht]
  have hq : validateQuestions 0 st.quiz.questions = [] ↔
      ∀ q ∈ st.quiz.questions,
        5 ≤ jsLength (jsTrim q.text) ∧
        2 ≤ (filledOptions q.options).length ∧
        (filledOptions q.options).Nodup ∧
        jsTruthy (jsTrim q.correctOption) = true ∧
        jsTrim q.correctOption ∈ filledOptions q.options := by
    rw [validateQuestions_eq_nil]
    constructor
    · intro h q hmem
      exact (validateQuestion_nonEmpty_eq_false q).1 (h q hmem)
    · intro h q hmem
      exact (validateQuestion_nonEmpty_eq_false q).2 (h q hmem)
  simp only [validateQuiz, quizErrors, FormErrors.isEmpty, Bool.and_eq_true,
    Option.isNone_iff_eq_none, List.isEmpty_iff]
  rw [htitle, hq]

/-- What `handleSubmit` sends for a valid draft, whatever the backend answers. -/
theorem handleSubmit_of_valid (post : DraftQuiz → Except String String) (st : FormState)
    (h : (validateQuiz st).2 = true) :
    (handleSubmit post st).2.requests = [cleanedQuiz st.quiz] := by
  unfold handleSubmit
  rw [show validateQuiz st = ((validateQuiz st).1, (validateQuiz st).2) from rfl]
  simp only [h]
  have hq : (validateQuiz st).1.quiz = st.quiz := rfl
  cases hp : post (cleanedQuiz (validateQuiz st).1.quiz) <;> simp [hp, hq]

/-- What `handleSubmit` does with an invalid draft. -/
theorem handleSubmit_of_invalid (post : DraftQuiz → Except String String) (st : FormState)
    (h : (validateQuiz st).2 = false) :
    (handleSubmit post st).2.requests = [] := by
  unfold handleSubmit
  rw [show validateQuiz st = ((validateQuiz st).1, (validateQuiz st).2) from rfl]
  simp [h, noFormEffects]

end QuizFrontend

namespace QuizFrontend

theorem jsTruthy_iff_ne_empty (s : String) : jsTruthy s = true ↔ s ≠ "" := by
  cases s with
  | mk data =>
    cases data with
    | nil => simp [jsTruthy]
    | cons c rest =>
      simp only [jsTruthy, List.isEmpty_cons, Bool.not_false, true_iff]
      intro h
      exact List.noConfusion (congrArg String.data h)

theorem filledOptions_eq_filter_ne_empty (options : List String) :
    filledOptions options = options.filter (fun o => decide (jsTrim o ≠ "")) := by
  unfold filledOptions
  apply List.filter_congr
  intro o _
  by_cases h : jsTrim o = ""
  · have hempty : jsTruthy "" = false := rfl
    simp [h, hempty]
  · simp [h, (jsTruthy_iff_ne_empty _).2 h]

theorem not_nodup_filledOptions_of_duplicate (options : List String) (o : String)
    (hdup : List.Duplicate o options) (hfilled : jsTruthy (jsTrim o) = true) :
    ¬ (filledOptions options).Nodup := by
  have hsub : [o, o].Sublist options := List.duplicate_iff_sublist.1 hdup
  have hsub2 := hsub.filter (fun option => jsTruthy (jsTrim option))
  have hpair : List.filter (fun option => jsTruthy (jsTrim option)) [o, o] = [o, o] := by
    simp [List.filter, hfilled]
  rw [hpair] at hsub2
  intro hnd
  have : List.Duplicate o (filledOptions options) := List.duplicate_iff_sublist.2 hsub2
  exact (List.nodup_iff_forall_not_duplicate.1 hnd) o this

/-! ## Option and correct-option checks -/

/-- C11 as stated fails on a question whose two options are the same blank string `" "`:
they are identical and non-empty, but blank options are left out before the duplicate
check, and the options error reported is "At least 2 options are required". -/
theorem validateQuiz_blank_twins_not_reported_as_duplicates :
    blankTwinsForm.quiz.questions[0]? = some blankTwinsQuestion ∧
    List.Duplicate " " blankTwinsQuestion.options ∧ " " ≠ "" ∧
    (questionErrorsAt (validateQuiz blankTwinsForm).1.errors 0).bind QuestionErrors.options =
      some "At least 2 options are required" ∧
    (questionErrorsAt (validateQuiz blankTwinsForm).1.errors 0).bind QuestionErrors.options ≠
      some "Options must be unique" := by
  refine ⟨rfl, ?_, by decide, by decide, by decide⟩
  exact List.duplicate_iff_sublist.2 (List.Sublist.refl _)

/-- C11, amended: for every draft question whose options contain the same string twice,
that string being non-empty after trimming, `validateQuiz` reports "Options must be
unique" in the options field of that question. -/
theorem validateQuiz_reports_duplicate_options (st : FormState) (i : Nat) (q : DraftQuestion)
    (o : String) (hq : st.quiz.questions[i]? = some q)
    (hdup : List.Duplicate o q.options) (hfilled : jsTrim o ≠ "") :
    (questionErrorsAt (validateQuiz st).1.errors i).bind QuestionErrors.options =
      some "Options must be unique" := by
  have hnd := not_nodup_filledOptions_of_duplicate q.options o hdup
    ((jsTruthy_iff_ne_empty _).2 hfilled)
  have hopt : (validateQuestion q).options = some msgDuplicateOptions := by
    rw [validateQuestion_options]; simp [hnd]
  have hne : (validateQuestion q).nonEmpty = true := by
    simp [QuestionErrors.nonEmpty, hopt]
  rw [questionErrorsAt_validateQuiz, hq]
  simp [hne, hopt, msgDuplicateOptions]

/-- Witness of C11: the options `["Paris", "Paris"]`. -/
theorem validateQuiz_reports_duplicate_options_witness :
    parisTwiceForm.quiz.questions[0]? =
      some { text := "Capital of France?", options := ["Paris", "Paris"],
             correctOption := "Paris" } ∧
    List.Duplicate "Paris" ["Paris", "Paris"] ∧ jsTrim "Paris" ≠ "" ∧
    (questionErrorsAt (validateQuiz parisTwiceForm).1.errors 0).bind QuestionErrors.options =
      some "Options must be unique" :=
  ⟨rfl, List.duplicate_iff_sublist.2 (List.Sublist.refl _), by decide,
   validateQuiz_reports_duplicate_options parisTwiceForm 0
     { text := "Capital of France?", options := ["Paris", "Paris"], correctOption := "Paris" }
     "Paris" rfl (List.duplicate_iff_sublist.2 (List.Sublist.refl _)) (by decide)⟩

/-- C12 as stated fails in two ways. On the untouched form the correct option is empty,
hence not among the filled options, and the error reported is "Correct option is
required". On the form where the correct option is `"Paris "` and the options are
`"Paris"` and `"Rome"`, the correct option is not among the filled options and no error
is reported for the question. -/
theorem validateQuiz_correctOption_not_filled_without_mismatch :
    (untitledForm.quiz.questions[0]? = some emptyQuestion ∧
      emptyQuestion.correctOption ∉ filledOptions emptyQuestion.options ∧
      (questionErrorsAt (validateQuiz untitledForm).1.errors 0).bind
        QuestionErrors.correctOption = some "Correct option is required") ∧
    (trailingSpaceForm.quiz.questions[0]? =
        some { text := "Capital of France?", options := ["Paris", "Rome", "", ""],
               correctOption := "Paris " } ∧
      "Paris " ∉ filledOptions ["Paris", "Rome", "", ""] ∧
      questionErrorsAt (validateQuiz trailingSpaceForm).1.errors 0 = none) := by
  refine ⟨⟨rfl, by decide, by decide⟩, by decide, by decide, by decide⟩

/-- C12, amended: for every draft question whose correct option, once trimmed, is not among
its filled options, `validateQuiz` reports "Correct option must match one of the provided
options" when the correct option is not blank, and "Correct option is required" when it is
blank. -/
theorem validateQuiz_reports_correctOption_mismatch (st : FormState) (i : Nat)
    (q : DraftQuestion) (hq : st.quiz.questions[i]? = some q)
    (hnotin : jsTrim q.correctOption ∉ filledOptions q.options) :
    (jsTrim q.correctOption ≠ "" →
      (questionErrorsAt (validateQuiz st).1.errors i).bind QuestionErrors.correctOption =
        some "Correct option must match one of the provided options") ∧
    (jsTrim q.correctOption = "" →
      (questionErrorsAt (validateQuiz st).1.errors i).bind QuestionErrors.correctOption =
        some "Correct option is required") := by
  constructor
  · intro hne
    have ht := (jsTruthy_iff_ne_empty _).2 hne
    have hc : (validateQuestion q).correctOption = some msgCorrectMismatch := by
      rw [validateQuestion_correctOption]; simp [ht, hnotin]
    have hnonempty : (validateQuestion q).nonEmpty = true := by
      simp [QuestionErrors.nonEmpty, hc]
    rw [questionErrorsAt_validateQuiz, hq]
    simp [hnonempty, hc, msgCorrectMismatch]
  · intro he
    have ht : jsTruthy (jsTrim q.correctOption) = false := by
      rw [he]; rfl
    have hc : (validateQuestion q).correctOption = some msgCorrectRequired := by
      rw [validateQuestion_correctOption]; simp [ht]
    have hnonempty : (validateQuestion q).nonEmpty = true := by
      simp [QuestionErrors.nonEmpty, hc]
    rw [questionErrorsAt_validateQuiz, hq]
    simp [hnonempty, hc, msgCorrectRequired]

/-- Witness of C12: the correct option `"Rome"` with the single filled option `"Paris"`. -/
theorem validateQuiz_reports_correctOption_mismatch_witness :
    oneOptionForm.quiz.questions[0]? =
      some { text := "Capital of France?", options := ["Paris", "", "", ""],
             correctOption := "Rome" } ∧
    jsTrim "Rome" ∉ filledOptions ["Paris", "", "", ""] ∧ jsTrim "Rome" ≠ "" ∧
    (questionErrorsAt (validateQuiz oneOptionForm).1.errors 0).bind
      QuestionErrors.correctOption =
      some "Correct option must match one of the provided options" :=
  ⟨rfl, by decide, by decide,
   (validateQuiz_reports_correctOption_mismatch oneOptionForm 0
     { text := "Capital of France?", options := ["Paris", "", "", ""], correctOption := "Rome" }
     rfl (by decide)).1 (by decide)⟩

/-- C13: `validateQuiz` returns `true`, and stores an empty report, if and only if the
trimmed title has at least 3 characters and every question has a trimmed text of at least
5 characters, at least 2 filled options, pairwise distinct filled options, and a correct
option that is not blank and whose trimmed value is among the filled options. Characters
are UTF-16 code units. -/
theorem validateQuiz_permits_iff (st : FormState) :
    ((validateQuiz st).2 = true ↔
      3 ≤ jsLength (jsTrim st.quiz.title) ∧
      ∀ q ∈ st.quiz.questions,
        5 ≤ jsLength (jsTrim q.text) ∧
        2 ≤ (filledOptions q.options).length ∧
        (filledOptions q.options).Nodup ∧
        jsTrim q.correctOption ≠ "" ∧
        jsTrim q.correctOption ∈ filledOptions q.options) ∧
    ((validateQuiz st).2 = true ↔
      (validateQuiz st).1.errors = { title := none, questions := [] }) := by
  constructor
  · rw [validateQuiz_eq_true_iff]
    constructor
    · rintro ⟨ht, hq⟩
      refine ⟨ht, fun q hmem => ?_⟩
      obtain ⟨h1, h2, h3, h4, h5⟩ := hq q hmem
      exact ⟨h1, h2, h3, (jsTruthy_iff_ne_empty _).1 h4, h5⟩
    · rintro ⟨ht, hq⟩
      refine ⟨ht, fun q hmem => ?_⟩
      obtain ⟨h1, h2, h3, h4, h5⟩ := hq q hmem
      exact ⟨h1, h2, h3, (jsTruthy_iff_ne_empty _).2 h4, h5⟩
  · show (quizErrors st.quiz).isEmpty = true ↔ quizErrors st.quiz = _
    generalize quizErrors st.quiz = e
    cases e with
    | mk title questions =>
      cases title <;> cases questions <;> simp [FormErrors.isEmpty]

end QuizFrontend

namespace QuizFrontend

/-! ## Accumulation of errors -/

/-- C14: `validateQuiz` does not short-circuit. The entries of the questions are the same
whatever the title is; the report has an entry for question index `i` exactly when
question `i` exists and has at least one error, and that entry is the error object of
question `i` alone; a question with blank text, fewer than two filled options and a blank
correct option gets all three errors at once. -/
theorem validateQuiz_accumulates_errors (st : FormState) (i : Nat) :
    (∀ title : String,
      (validateQuiz { st with quiz := { st.quiz with title := title } }).1.errors.questions =
        (validateQuiz st).1.errors.questions) ∧
    ((questionErrorsAt (validateQuiz st).1.errors i).isSome = true ↔
      ∃ q, st.quiz.questions[i]? = some q ∧ (validateQuestion q).nonEmpty = true) ∧
    (∀ q, st.quiz.questions[i]? = some q → (validateQuestion q).nonEmpty = true →
      questionErrorsAt (validateQuiz st).1.errors i = some (validateQuestion q)) ∧
    (∀ q, st.quiz.questions[i]? = some q →
      jsTrim q.text = "" → (filledOptions q.options).length < 2 →
      jsTrim q.correctOption = "" →
      questionErrorsAt (validateQuiz st).1.errors i =
        some { text := some "Question text is required",
               options := some "At least 2 options are required",
               correctOption := some "Correct option is required" }) := by
  refine ⟨fun _ => rfl, ?_, ?_, ?_⟩
  · rw [questionErrorsAt_validateQuiz]
    cases hq : st.quiz.questions[i]? with
    | none => simp
    | some q =>
      by_cases hne : (validateQuestion q).nonEmpty = true
      · simp [hne]
      · simp [hne]
  · intro q hq hne
    rw [questionErrorsAt_validateQuiz, hq]
    simp [hne]
  · intro q hq htext hfew hcorrect
    have h0 : jsLength (jsTrim q.text) = 0 := by rw [htext]; rfl
    have hc : jsTruthy (jsTrim q.correctOption) = false := by rw [hcorrect]; rfl
    have hnd := nodup_of_length_lt_two _ hfew
    have h1 : (validateQuestion q).text = some msgTextRequired := by
      rw [validateQuestion_text]; simp [h0]
    have h2 : (validateQuestion q).options = some msgTooFewOptions := by
      rw [validateQuestion_options]; simp [hnd, hfew]
    have h3 : (validateQuestion q).correctOption = some msgCorrectRequired := by
      rw [validateQuestion_correctOption]; simp [hc]
    have hne : (validateQuestion q).nonEmpty = true := by
      simp [QuestionErrors.nonEmpty, h1]
    rw [questionErrorsAt_validateQuiz, hq]
    simp only [Option.some_bind, hne, if_true]
    have : validateQuestion q =
        { text := (validateQuestion q).text, options := (validateQuestion q).options,
          correctOption := (validateQuestion q).correctOption } := rfl
    rw [this, h1, h2, h3]
    rfl

/-- Witness of C14: the untouched form has a title error and its only question, blank in
every field, is reported with its three errors. -/
theorem validateQuiz_accumulates_errors_witness :
    untitledForm.quiz.questions[0]? = some emptyQuestion ∧
    jsTrim emptyQuestion.text = "" ∧ (filledOptions emptyQuestion.options).length < 2 ∧
    jsTrim emptyQuestion.correctOption = "" ∧
    (validateQuiz untitledForm).1.errors.title = some "Quiz title is required" ∧
    questionErrorsAt (validateQuiz untitledForm).1.errors 0 =
      some { text := some "Question text is required",
             options := some "At least 2 options are required",
             correctOption := some "Correct option is required" } :=
  ⟨rfl, by decide, by decide, by decide, by decide,
   (validateQuiz_accumulates_errors untitledForm 0).2.2.2 emptyQuestion rfl
     (by decide) (by decide) (by decide)⟩

/-- C15: for every draft question with fewer than 2 filled options `validateQuiz` reports
"At least 2 options are required" in the options field of that question; the duplicate
check does not replace it, fewer than 2 filled options being always pairwise distinct. -/
theorem validateQuiz_reports_insufficient_options (st : FormState) (i : Nat)
    (q : DraftQuestion) (hq : st.quiz.questions[i]? = some q)
    (hfew : (q.options.filter (fun o => decide (jsTrim o ≠ ""))).length < 2) :
    (questionErrorsAt (validateQuiz st).1.errors i).bind QuestionErrors.options =
      some "At least 2 options are required" ∧
    (filledOptions q.options).dedup.length = (filledOptions q.options).length := by
  rw [← filledOptions_eq_filter_ne_empty] at hfew
  have hnd := nodup_of_length_lt_two _ hfew
  have hopt : (validateQuestion q).options = some msgTooFewOptions := by
    rw [validateQuestion_options]; simp [hnd, hfew]
  have hne : (validateQuestion q).nonEmpty = true := by
    simp [QuestionErrors.nonEmpty, hopt]
  refine ⟨?_, (dedup_length_eq_iff _).2 hnd⟩
  rw [questionErrorsAt_validateQuiz, hq]
  simp [hne, hopt, msgTooFewOptions]

/-- Witness of C15: one filled option and three blank ones. -/
theorem validateQuiz_reports_insufficient_options_witness :
    oneOptionForm.quiz.questions[0]? =
      some { text := "Capital of France?", options := ["Paris", "", "", ""],
             correctOption := "Rome" } ∧
    (["Paris", "", "", ""].filter (fun o => decide (jsTrim o ≠ ""))).length < 2 ∧
    (questionErrorsAt (validateQuiz oneOptionForm).1.errors 0).bind QuestionErrors.options =
      some "At least 2 options are required" :=
  ⟨rfl, by decide,
   (validateQuiz_reports_insufficient_options oneOptionForm 0
     { text := "Capital of France?", options := ["Paris", "", "", ""], correctOption := "Rome" }
     rfl (by decide)).1⟩

/-! ## Submission -/

/-- C16: for a draft that passes validation `handleSubmit` sends exactly one quiz, whatever
the backend answers; its title and author are those of the draft, it has the same number
of questions in the same order, and each question keeps its text and correct option while
its options are the draft's options that are not empty after trimming, in their original
order and unmodified, so that their number is the number of non-blank options entered. -/
theorem handleSubmit_sends_cleaned_quiz (post : DraftQuiz → Except String String)
    (st : FormState) (hvalid : (validateQuiz st).2 = true) :
    ∃ sent, (handleSubmit post st).2.requests = [sent] ∧
      sent.title = st.quiz.title ∧ sent.username = st.quiz.username ∧
      sent.questions.length = st.quiz.questions.length ∧
      ∀ (i : Nat) (q : DraftQuestion), st.quiz.questions[i]? = some q →
        ∃ q1 : DraftQuestion, sent.questions[i]? = some q1 ∧
          q1.text = q.text ∧ q1.correctOption = q.correctOption ∧
          q1.options = q.options.filter (fun o => decide (jsTrim o ≠ "")) ∧
          List.Sublist q1.options q.options ∧
          q1.options.length = q.options.countP (fun o => decide (jsTrim o ≠ "")) := by
  refine ⟨cleanedQuiz st.quiz, handleSubmit_of_valid post st hvalid, rfl, rfl, ?_, ?_⟩
  · simp [cleanedQuiz]
  · intro i q hq
    refine ⟨{ q with options := filledOptions q.options }, ?_, rfl, rfl, ?_, ?_, ?_⟩
    · simp [cleanedQuiz, List.getElem?_map, hq]
    · exact filledOptions_eq_filter_ne_empty q.options
    · show List.Sublist (filledOptions q.options) q.options
      exact List.filter_sublist _
    · show (filledOptions q.options).length = _
      rw [filledOptions_eq_filter_ne_empty, List.countP_eq_length_filter]

/-- Witness of C16: the draft with options `"Paris"`, `"Rome"` and two blank ones is sent
with the options `"Paris"` and `"Rome"`. -/
theorem handleSubmit_sends_cleaned_quiz_witness :
    (validateQuiz capitalsForm).2 = true ∧
    capitalsForm.quiz.questions =
      [{ text := "Capital of France?", options := ["Paris", "Rome", "", ""],
         correctOption := "Paris" }] ∧
    (handleSubmit quizBackendUp capitalsForm).2.requests =
      [{ title := "Capitals", username := "teacher",
         questions := [{ text := "Capital of France?", options := ["Paris", "Rome"],
                         correctOption := "Paris" }] }] := by
  refine ⟨by decide, by decide, ?_⟩
  obtain ⟨sent, hsent, _⟩ := handleSubmit_sends_cleaned_quiz quizBackendUp capitalsForm
    (by decide)
  rw [hsent]
  have h2 : (handleSubmit quizBackendUp capitalsForm).2.requests =
      [{ title := "Capitals", username := "teacher",
         questions := [{ text := "Capital of France?", options := ["Paris", "Rome"],
                         correctOption := "Paris" }] }] := by decide
  rw [hsent] at h2
  exact h2

/-- C17, evaluated on the code: after the author types the option `"Paris "`, selects it
as the correct answer and deletes the trailing space from the option, the draft passes
`validateQuiz` (the trimmed correct option is among the filled options) and `handleSubmit`
sends the question with the options `"Paris"` and `"Rome"` and the correct option
`"Paris "`, which is none of its options. -/
theorem handleSubmit_sends_unmatched_correctOption :
    trailingSpaceForm = applyEvents (initialForm "teacher")
      [.updateTitle "Capitals", .updateQuestionText 0 "Capital of France?",
       .updateOption 0 0 "Paris ", .updateOption 0 1 "Rome",
       .updateCorrectOption 0 "Paris ", .updateOption 0 0 "Paris"] ∧
    (validateQuiz trailingSpaceForm).2 = true ∧
    (handleSubmit quizBackendUp trailingSpaceForm).2.requests =
      [{ title := "Capitals", username := "teacher",
         questions := [{ text := "Capital of France?", options := ["Paris", "Rome"],
                         correctOption := "Paris " }] }] ∧
    "Paris " ∉ ["Paris", "Rome"] := by
  refine ⟨rfl, by decide, by decide, by decide⟩

end QuizFrontend

namespace QuizFrontend

/-! ## The shape kept by the editing handlers -/

theorem updateAt_length {α : Type} (l : List α) (i : Nat) (f : α → α) :
    (updateAt l i f).length = l.length := by
  induction l generalizing i with
  | nil => rfl
  | cons x rest ih =>
    cases i with
    | zero => rfl
    | succ j => simp [updateAt, ih]

theorem mem_updateAt {α : Type} (l : List α) (i : Nat) (f : α → α) (x : α)
    (h : x ∈ updateAt l i f) : x ∈ l ∨ ∃ y, l[i]? = some y ∧ x = f y := by
  induction l generalizing i with
  | nil => simp [updateAt] at h
  | cons a rest ih =>
    cases i with
    | zero =>
      simp only [updateAt, List.mem_cons] at h
      rcases h with h | h
      · exact Or.inr ⟨a, by simp, h⟩
      · exact Or.inl (List.mem_cons_of_mem _ h)
    | succ j =>
      simp only [updateAt, List.mem_cons] at h
      rcases h with h | h
      · exact Or.inl (by simp [h])
      · rcases ih j h with h1 | ⟨y, hy, hxy⟩
        · exact Or.inl (List.mem_cons_of_mem _ h1)
        · exact Or.inr ⟨y, by simpa using hy, hxy⟩

theorem optionsAt_of_getElem (st : FormState) (i : Nat) (q : DraftQuestion)
    (h : st.quiz.questions[i]? = some q) : optionsAt st i = q.options := by
  simp [optionsAt, h]

/-- Replacing one question by a question with an admissible number of options keeps the
shape. -/
theorem wellShaped_updateAt (st st1 : FormState) (i : Nat) (f : DraftQuestion → DraftQuestion)
    (hst : WellShaped st)
    (hq : st1.quiz.questions = updateAt st.quiz.questions i f)
    (hf : ∀ q, st.quiz.questions[i]? = some q →
      2 ≤ (f q).options.length ∧ (f q).options.length ≤ 6) :
    WellShaped st1 := by
  obtain ⟨hlen, hopts⟩ := hst
  refine ⟨by rw [hq, updateAt_length]; exact hlen, ?_⟩
  intro q hmem
  rw [hq] at hmem
  rcases mem_updateAt _ _ _ _ hmem with h | ⟨y, hy, hxy⟩
  · exact hopts q h
  · rw [hxy]; exact hf y hy

theorem initialForm_wellShaped (username : String) : WellShaped (initialForm username) := by
  refine ⟨by simp [initialForm], ?_⟩
  intro q hq
  simp [initialForm, emptyQuestion] at hq
  subst hq
  simp

theorem updateQuestionText_questions (st : FormState) (i : Nat) (value : String) :
    (updateQuestionText st i value).quiz.questions =
      updateAt st.quiz.questions i (fun question => { question with text := value }) := by
  unfold updateQuestionText
  split <;> rfl

theorem updateCorrectOption_questions (st : FormState) (i : Nat) (value : String) :
    (updateCorrectOption st i value).quiz.questions =
      updateAt st.quiz.questions i
        (fun question => { question with correctOption := value }) := by
  unfold updateCorrectOption
  split <;> rfl

theorem runHandler_wellShaped (st : FormState) (event : FormEvent) (hst : WellShaped st) :
    WellShaped (runHandler st event) := by
  cases event with
  | addQuestion =>
    obtain ⟨hlen, hopts⟩ := hst
    refine ⟨by simp [runHandler, addQuestion], ?_⟩
    intro q hq
    simp only [runHandler, addQuestion, List.mem_append, List.mem_singleton] at hq
    rcases hq with h | h
    · exact hopts q h
    · subst h; simp [emptyQuestion]
  | removeQuestion qIndex =>
    obtain ⟨hlen, hopts⟩ := hst
    by_cases hgt : st.quiz.questions.length > 1
    · simp only [runHandler, removeQuestion, hgt, if_true]
      refine ⟨?_, ?_⟩
      · show 1 ≤ (st.quiz.questions.eraseIdx qIndex).length
        rw [List.length_eraseIdx]
        split_ifs <;> omega
      · intro q hq
        exact hopts q (List.mem_of_mem_eraseIdx hq)
    · simp only [runHandler, removeQuestion, hgt, if_false]
      exact ⟨hlen, hopts⟩
  | addOption qIndex =>
    by_cases hlt : (optionsAt st qIndex).length < 6
    · simp only [runHandler, addOption, hlt, if_true]
      apply wellShaped_updateAt st _ qIndex _ hst rfl
      intro q hq
      rw [optionsAt_of_getElem st qIndex q hq] at hlt
      have := (hst.2 q (List.getElem?_mem hq)).1
      simp only [List.length_append, List.length_singleton]
      omega
    · simp only [runHandler, addOption, hlt, if_false]
      exact hst
  | removeOption qIndex oIndex =>
    by_cases hgt : (optionsAt st qIndex).length > 2
    · simp only [runHandler, removeOption, hgt, if_true]
      apply wellShaped_updateAt st _ qIndex _ hst rfl
      intro q hq
      rw [optionsAt_of_getElem st qIndex q hq] at hgt
      have := (hst.2 q (List.getElem?_mem hq)).2
      show 2 ≤ (q.options.eraseIdx oIndex).length ∧ (q.options.eraseIdx oIndex).length ≤ 6
      rw [List.length_eraseIdx]
      split_ifs <;> omega
    · simp only [runHandler, removeOption, hgt, if_false]
      exact hst
  | updateQuestionText qIndex value =>
    apply wellShaped_updateAt st _ qIndex _ hst (updateQuestionText_questions st qIndex value)
    intro q hq
    exact hst.2 q (List.getElem?_mem hq)
  | updateOption qIndex oIndex value =>
    apply wellShaped_updateAt st _ qIndex _ hst rfl
    intro q hq
    have := hst.2 q (List.getElem?_mem hq)
    simpa using this
  | updateCorrectOption qIndex value =>
    apply wellShaped_updateAt st _ qIndex _ hst (updateCorrectOption_questions st qIndex value)
    intro q hq
    exact hst.2 q (List.getElem?_mem hq)
  | updateTitle value => exact hst

theorem applyEvent_wellShaped (st : FormState) (event : FormEvent) (hst : WellShaped st) :
    WellShaped (applyEvent st event) := by
  unfold applyEvent
  split_ifs
  · exact runHandler_wellShaped st event hst
  · exact hst

theorem applyEvents_wellShaped (st : FormState) (events : List FormEvent)
    (hst : WellShaped st) : WellShaped (applyEvents st events) := by
  induction events generalizing st with
  | nil => exact hst
  | cons event rest ih =>
    exact ih (applyEvent st event) (applyEvent_wellShaped st event hst)

end QuizFrontend

namespace QuizFrontend

theorem jsTrim_empty : jsTrim "" = "" := rfl

theorem mem_cleanedQuiz_questions (quiz : DraftQuiz) (q : DraftQuestion)
    (h : q ∈ (cleanedQuiz quiz).questions) :
    ∃ q0 ∈ quiz.questions, q = { q0 with options := filledOptions q0.options } := by
  simp only [cleanedQuiz, List.mem_map] at h
  obtain ⟨q0, hq0, hq⟩ := h
  exact ⟨q0, hq0, hq.symm⟩

theorem cleanedQuiz_questions_length (quiz : DraftQuiz) :
    (cleanedQuiz quiz).questions.length = quiz.questions.length := by
  simp [cleanedQuiz]

/-- What `handleSubmit` sends is nothing or the cleaned quiz. -/
theorem handleSubmit_requests (post : DraftQuiz → Except String String) (st : FormState) :
    (handleSubmit post st).2.requests = [] ∨
      (handleSubmit post st).2.requests = [cleanedQuiz st.quiz] := by
  cases hv : (validateQuiz st).2
  · exact Or.inl (handleSubmit_of_invalid post st hv)
  · exact Or.inr (handleSubmit_of_valid post st hv)

/-! ## Invariants of the published quiz -/

/-- C18: for every draft reached from the initial form by a sequence of actions on the
rendered controls (adding and removing questions and options, editing the fields), if the
draft passes `validateQuiz` then `handleSubmit` sends one quiz, every question of which has
between 2 and 6 options, all non-empty, even after trimming, and pairwise distinct. -/
theorem handleSubmit_sends_wellformed_options (username : String) (events : List FormEvent)
    (post : DraftQuiz → Except String String)
    (hvalid : (validateQuiz (applyEvents (initialForm username) events)).2 = true) :
    ∃ sent, (handleSubmit post (applyEvents (initialForm username) events)).2.requests =
        [sent] ∧
      ∀ q ∈ sent.questions,
        2 ≤ q.options.length ∧ q.options.length ≤ 6 ∧
        (∀ o ∈ q.options, o ≠ "" ∧ jsTrim o ≠ "") ∧ q.options.Nodup := by
  have hshape := applyEvents_wellShaped (initialForm username) events
    (initialForm_wellShaped username)
  refine ⟨_, handleSubmit_of_valid post _ hvalid, ?_⟩
  intro q hq
  obtain ⟨q0, hq0, hqeq⟩ := mem_cleanedQuiz_questions _ q hq
  obtain ⟨_, hall⟩ := (validateQuiz_eq_true_iff _).1 hvalid
  obtain ⟨_, h2, hnd, _, _⟩ := hall q0 hq0
  have h6 := (hshape.2 q0 hq0).2
  have hle : (filledOptions q0.options).length ≤ q0.options.length :=
    List.length_filter_le _ _
  subst hqeq
  refine ⟨h2, le_trans hle h6, ?_, hnd⟩
  intro o ho
  have hfilled := ((filledOptions_mem _ _).1 ho).2
  have htrim : jsTrim o ≠ "" := (jsTruthy_iff_ne_empty _).1 hfilled
  refine ⟨?_, htrim⟩
  intro hempty
  rw [hempty] at htrim
  exact htrim jsTrim_empty

/-- Witness of C18: the form filled in with one valid question. -/
theorem handleSubmit_sends_wellformed_options_witness :
    (validateQuiz (applyEvents (initialForm "teacher") fillCapitals)).2 = true ∧
    ∃ sent, (handleSubmit quizBackendUp
        (applyEvents (initialForm "teacher") fillCapitals)).2.requests = [sent] ∧
      ∀ q ∈ sent.questions,
        2 ≤ q.options.length ∧ q.options.length ≤ 6 ∧
        (∀ o ∈ q.options, o ≠ "" ∧ jsTrim o ≠ "") ∧ q.options.Nodup :=
  ⟨by decide,
   handleSubmit_sends_wellformed_options "teacher" fillCapitals quizBackendUp (by decide)⟩

/-- C19 as stated fails on a draft with a valid title and an empty question list:
`validateQuiz` stores an empty report and returns `true`, and `handleSubmit` sends the quiz
with no question. -/
theorem validateQuiz_accepts_empty_question_list :
    noQuestionForm.quiz.questions = [] ∧
    (validateQuiz noQuestionForm).2 = true ∧
    (validateQuiz noQuestionForm).1.errors = { title := none, questions := [] } ∧
    (handleSubmit quizBackendUp noQuestionForm).2.requests =
      [{ title := "Capitals", username := "teacher", questions := [] }] := by
  refine ⟨rfl, by decide, by decide, by decide⟩

/-- C19, amended: a quiz with zero questions is kept out by the editing handlers, not by
the validator. Every draft reached from the initial form by actions on the rendered
controls has at least one question, so every quiz `handleSubmit` sends has at least one;
on a draft whose question list is empty `validateQuiz` reports no question error and
permits submission exactly when the title is valid. -/
theorem editing_keeps_at_least_one_question (username : String) (events : List FormEvent)
    (post : DraftQuiz → Except String String) :
    1 ≤ (applyEvents (initialForm username) events).quiz.questions.length ∧
    (∀ sent ∈ (handleSubmit post (applyEvents (initialForm username) events)).2.requests,
      1 ≤ sent.questions.length) ∧
    (∀ st : FormState, st.quiz.questions = [] →
      (validateQuiz st).1.errors.questions = [] ∧
      ((validateQuiz st).2 = true ↔ 3 ≤ jsLength (jsTrim st.quiz.title))) := by
  have hshape := applyEvents_wellShaped (initialForm username) events
    (initialForm_wellShaped username)
  refine ⟨hshape.1, ?_, ?_⟩
  · intro sent hsent
    rcases handleSubmit_requests post (applyEvents (initialForm username) events) with h | h
    · rw [h] at hsent
      simp at hsent
    · rw [h] at hsent
      simp only [List.mem_singleton] at hsent
      rw [hsent, cleanedQuiz_questions_length]
      exact hshape.1
  · intro st hnil
    refine ⟨?_, ?_⟩
    · show validateQuestions 0 st.quiz.questions = []
      rw [hnil]; rfl
    · rw [validateQuiz_eq_true_iff, hnil]
      simp

/-- Witness of C19: after a question is added and the remove button is used twice, one
question is left; and the draft with no question and the title `"Capitals"` is accepted
by the validator. -/
theorem editing_keeps_at_least_one_question_witness :
    (applyEvents (initialForm "teacher")
      [.addQuestion, .removeQuestion 0, .removeQuestion 0]).quiz.questions.length = 1 ∧
    1 ≤ (applyEvents (initialForm "teacher")
      [.addQuestion, .removeQuestion 0, .removeQuestion 0]).quiz.questions.length ∧
    noQuestionForm.quiz.questions = [] ∧
    ((validateQuiz noQuestionForm).2 = true ↔ 3 ≤ jsLength (jsTrim noQuestionForm.quiz.title)) :=
  ⟨by decide,
   (editing_keeps_at_least_one_question "teacher"
     [.addQuestion, .removeQuestion 0, .removeQuestion 0] quizBackendUp).1,
   rfl,
   ((editing_keeps_at_least_one_question "teacher" [] quizBackendUp).2.2
     noQuestionForm rfl).2⟩

/-! ## The cursor -/

/-- C20: the cursor is a valid question index in the initial state of a quiz with at least
one question, and every handler started with a valid cursor leaves a valid cursor on the
same quiz: `handleOptionClick`, `handlePreviousQuestion`, `handleNextQuestion` and
`handleSubmitQuiz` (both always resolve). Hence the lookup of the current question
succeeds. -/
theorem cursor_stays_in_range (user : User) (post : QuizResult → Except String Unit)
    (s : QuizState) (questionId : Nat) (option : String)
    (h : s.currentQuestion < s.quizDetails.questions.length) :
    (∀ quiz : QuizDetails, 1 ≤ quiz.questions.length →
      (initialState quiz).currentQuestion < (initialState quiz).quizDetails.questions.length) ∧
    ((handleOptionClick s questionId option).quizDetails = s.quizDetails ∧
      (handleOptionClick s questionId option).currentQuestion <
        s.quizDetails.questions.length) ∧
    ((handlePreviousQuestion s).quizDetails = s.quizDetails ∧
      (handlePreviousQuestion s).currentQuestion < s.quizDetails.questions.length) ∧
    (∃ st eff, handleNextQuestion user post s = Except.ok (st, eff) ∧
      st.quizDetails = s.quizDetails ∧
      st.currentQuestion < s.quizDetails.questions.length) ∧
    (∃ st eff, handleSubmitQuiz user post s = Except.ok (st, eff) ∧
      st.quizDetails = s.quizDetails ∧
      st.currentQuestion < s.quizDetails.questions.length) ∧
    (s.quizDetails.questions[s.currentQuestion]?).isSome = true := by
  obtain ⟨eff, hsubmit, _⟩ := handleSubmitQuiz_resolves user post s
  refine ⟨?_, ⟨rfl, h⟩, ?_, ?_,
    ⟨{ s with score := countCorrect s.quizDetails.questions s.selectedAnswers,
              quizCompleted := true, showResults := true }, eff, hsubmit, rfl, h⟩, ?_⟩
  · intro quiz hquiz
    exact hquiz
  · unfold handlePreviousQuestion
    split_ifs
    · exact ⟨rfl, by show s.currentQuestion - 1 < _; omega⟩
    · exact ⟨rfl, h⟩
  · by_cases hlt : (s.currentQuestion : Int) < (s.quizDetails.questions.length : Int) - 1
    · refine ⟨{ s with currentQuestion := s.currentQuestion + 1 }, noEffects, ?_, rfl, ?_⟩
      · simp [handleNextQuestion, hlt, pure, Except.pure]
      · show s.currentQuestion + 1 < _
        omega
    · refine ⟨{ s with score := countCorrect s.quizDetails.questions s.selectedAnswers,
                       quizCompleted := true, showResults := true }, eff, ?_, rfl, h⟩
      simp [handleNextQuestion, hlt, hsubmit]
  · simp [List.getElem?_eq_getElem h]

/-- Witness of C20: the three-question session with the cursor on the last question. -/
theorem cursor_stays_in_range_witness :
    threeQuestionSession.currentQuestion < threeQuestionSession.quizDetails.questions.length ∧
    (handlePreviousQuestion threeQuestionSession).currentQuestion <
      threeQuestionSession.quizDetails.questions.length ∧
    (∃ st eff, handleNextQuestion sampleUser backendDown threeQuestionSession =
        Except.ok (st, eff) ∧
      st.quizDetails = threeQuestionSession.quizDetails ∧
      st.currentQuestion < threeQuestionSession.quizDetails.questions.length) :=
  ⟨by decide,
   (cursor_stays_in_range sampleUser backendDown threeQuestionSession 3 "Madrid"
     (by decide)).2.2.1.2,
   (cursor_stays_in_range sampleUser backendDown threeQuestionSession 3 "Madrid"
     (by decide)).2.2.2.1⟩

end QuizFrontend

namespace QuizFrontend

/-! ## Exact binary64 results -/

theorem roundHalfEven_mul (M D : Nat) (hD : 0 < D) : roundHalfEven (M * D) D = M := by
  have hmod : M * D % D = 0 := Nat.mul_mod_left M D
  have hdiv : M * D / D = M := Nat.mul_div_cancel M hD
  unfold roundHalfEven
  rw [hmod, hdiv]
  simp [hD]

/-- The quotient of `K * q` by `q` is the integer `K`, which binary64 holds exactly up to
`2 ^ 52`. -/
theorem roundToDouble_exact (q K : Nat) (hq : 0 < q) (hK0 : 0 < K) (hK : K ≤ 2 ^ 52) :
    roundToDouble (K * q) q = (K * 2 ^ (53 + log2Floor q), 2 ^ (53 + log2Floor q)) := by
  have hp : K * q ≠ 0 := Nat.mul_ne_zero (by omega) (by omega)
  unfold roundToDouble
  simp only [hp, if_false]
  have hlp : 2 ^ log2Floor (K * q) ≤ K * q := log2Floor_le (K * q) hp
  have hlq : q < 2 ^ (log2Floor q + 1) := lt_log2Floor q (by omega)
  have hlt : 2 ^ log2Floor (K * q) < 2 ^ (53 + log2Floor q) := by
    calc 2 ^ log2Floor (K * q) ≤ K * q := hlp
      _ ≤ 2 ^ 52 * q := Nat.mul_le_mul_right q hK
      _ < 2 ^ 52 * 2 ^ (log2Floor q + 1) := Nat.mul_lt_mul_of_pos_left hlq (by positivity)
      _ = 2 ^ (53 + log2Floor q) := by rw [← pow_add]; congr 1; omega
  have hexp : log2Floor (K * q) < 53 + log2Floor q :=
    (Nat.pow_lt_pow_iff_right (by norm_num)).1 hlt
  generalize hb : (if 2 ^ 52 * (q * 2 ^ (log2Floor (K * q) + 1)) ≤
      K * q * 2 ^ (53 + log2Floor q)
    then log2Floor (K * q) + 1 else log2Floor (K * q)) = b
  have hba : b ≤ 53 + log2Floor q := by
    rw [← hb]; split_ifs <;> omega
  obtain ⟨d, hd⟩ := Nat.exists_eq_add_of_le hba
  have hsplit : 2 ^ (53 + log2Floor q) = 2 ^ d * 2 ^ b := by
    rw [hd, Nat.add_comm b d, pow_add]
  have hnum : K * q * 2 ^ (53 + log2Floor q) = K * 2 ^ d * (q * 2 ^ b) := by
    rw [hsplit]; ring
  have hD : 0 < q * 2 ^ b := by positivity
  rw [hnum, roundHalfEven_mul _ _ hD]
  congr 1
  rw [hsplit]; ring

/-- A full score is shown as 100 percent. -/
theorem percentage_self (n : Nat) (hn : 0 < n) : percentage n n = some 100 := by
  have hn0 : n ≠ 0 := by omega
  have hx := roundToDouble_exact n 1 hn (by norm_num) (by norm_num)
  rw [Nat.one_mul, Nat.one_mul] at hx
  have hpos : 0 < 2 ^ (53 + log2Floor n) := by positivity
  have hy := roundToDouble_exact (2 ^ (53 + log2Floor n)) 100 hpos (by norm_num) (by norm_num)
  simp only [percentage, hn0, if_false, hx]
  rw [Nat.mul_comm (2 ^ (53 + log2Floor n)) 100, hy]
  congr 1
  unfold mathRound
  have hX : 0 < 2 ^ (53 + log2Floor (2 ^ (53 + log2Floor n))) := by positivity
  generalize 2 ^ (53 + log2Floor (2 ^ (53 + log2Floor n))) = X at hX
  apply Nat.div_eq_of_lt_le
  · show 100 * (2 * X) ≤ 2 * (100 * X) + X
    omega
  · show 2 * (100 * X) + X < (100 + 1) * (2 * X)
    omega

/-! ## Sequences of selections -/

theorem selectAll_quizDetails (s : QuizState) (clicks : List (Nat × String)) :
    (selectAll s clicks).quizDetails = s.quizDetails := by
  induction clicks generalizing s with
  | nil => rfl
  | cons c rest ih =>
    show (selectAll (handleOptionClick s c.1 c.2) rest).quizDetails = _
    rw [ih]
    rfl

theorem lookupAnswer_selectAll_of_not_mem (s : QuizState) (clicks : List (Nat × String))
    (k : Nat) (hk : k ∉ clicks.map Prod.fst) :
    lookupAnswer (selectAll s clicks).selectedAnswers k = lookupAnswer s.selectedAnswers k := by
  induction clicks generalizing s with
  | nil => rfl
  | cons c rest ih =>
    simp only [List.map_cons, List.mem_cons, not_or] at hk
    show lookupAnswer (selectAll (handleOptionClick s c.1 c.2) rest).selectedAnswers k = _
    rw [ih _ hk.2]
    exact lookupAnswer_upsertAnswer_other _ _ _ _ hk.1

/-- After selections on pairwise distinct questions each of them is recorded. -/
theorem lookupAnswer_selectAll_of_nodup (s : QuizState) (clicks : List (Nat × String))
    (hnd : (clicks.map Prod.fst).Nodup) :
    ∀ c ∈ clicks, lookupAnswer (selectAll s clicks).selectedAnswers c.1 = some c.2 := by
  induction clicks generalizing s with
  | nil => intro c hc; simp at hc
  | cons c0 rest ih =>
    simp only [List.map_cons, List.nodup_cons] at hnd
    intro c hc
    rcases List.mem_cons.1 hc with h | h
    · subst h
      show lookupAnswer (selectAll (handleOptionClick s c.1 c.2) rest).selectedAnswers c.1 = _
      rw [lookupAnswer_selectAll_of_not_mem _ _ _ hnd.1]
      exact lookupAnswer_upsertAnswer_same _ _ _
    · exact ih (handleOptionClick s c0.1 c0.2) hnd.2 c h

/-- A ledger that holds the correct option of every question counts them all. -/
theorem countCorrect_of_all_correct (qs : List Question) (l : Ledger)
    (h : ∀ q ∈ qs, lookupAnswer l q.id = some q.correctOption) :
    countCorrect qs l = qs.length := by
  rw [countCorrect_eq_countP, List.countP_eq_length]
  intro q hq
  simp [h q hq]

/-! ## Removal by index -/

theorem filter_enumFrom_ne (α : Type) (l : List α) (k i : Nat) :
    ((l.enumFrom k).filter fun entry => decide (entry.1 ≠ k + i)).map Prod.snd =
      l.eraseIdx i := by
  induction l generalizing k i with
  | nil => rfl
  | cons x rest ih =>
    cases i with
    | zero =>
      have hall : ∀ entry ∈ rest.enumFrom (k + 1), decide (entry.1 ≠ k) = true := by
        intro entry hmem
        have := List.le_fst_of_mem_enumFrom hmem
        simp
        omega
      simp only [List.enumFrom_cons, Nat.add_zero, List.eraseIdx_zero, List.tail_cons]
      rw [List.filter_cons_of_neg (by simp), List.filter_eq_self.2 hall]
      exact List.enumFrom_map_snd _ _
    | succ j =>
      have hk : k ≠ k + (j + 1) := by omega
      have hidx : k + (j + 1) = (k + 1) + j := by omega
      simp only [List.enumFrom_cons, List.eraseIdx_cons_succ]
      rw [List.filter_cons_of_pos (by simp), List.map_cons, hidx, ih (k + 1) j]

theorem filterOutIndex_eq_eraseIdx (α : Type) (l : List α) (i : Nat) :
    filterOutIndex l i = l.eraseIdx i := by
  have h := filter_enumFrom_ne α l 0 i
  rw [Nat.zero_add] at h
  exact h

/-- Calls of `addQuestion` and `removeQuestion` keep a non-empty question list non-empty. -/
theorem runHandlers_questions_length (st : FormState) (events : List FormEvent)
    (hevents : ∀ e ∈ events, isQuestionListEdit e = true)
    (hst : 1 ≤ st.quiz.questions.length) :
    1 ≤ (runHandlers st events).quiz.questions.length := by
  induction events generalizing st with
  | nil => exact hst
  | cons event rest ih =>
    have hrest : ∀ e ∈ rest, isQuestionListEdit e = true :=
      fun e he => hevents e (List.mem_cons_of_mem _ he)
    have hevent := hevents event (List.mem_cons_self _ _)
    apply ih (runHandler st event) hrest
    cases event with
    | addQuestion => simp [runHandler, addQuestion]
    | removeQuestion qIndex =>
      by_cases hgt : st.quiz.questions.length > 1
      · simp only [runHandler, removeQuestion, hgt, if_true]
        show 1 ≤ (st.quiz.questions.eraseIdx qIndex).length
        rw [List.length_eraseIdx]
        split_ifs <;> omega
      · simp only [runHandler, removeQuestion, hgt, if_false]
        exact hst
    | addOption _ => simp [isQuestionListEdit] at hevent
    | removeOption _ _ => simp [isQuestionListEdit] at hevent
    | updateQuestionText _ _ => simp [isQuestionListEdit] at hevent
    | updateOption _ _ _ => simp [isQuestionListEdit] at hevent
    | updateCorrectOption _ _ => simp [isQuestionListEdit] at hevent
    | updateTitle _ => simp [isQuestionListEdit] at hevent

end QuizFrontend

namespace QuizFrontend

/-! ## A perfect run -/

/-- C21: on a quiz with at least one question and pairwise distinct question ids, every
session whose ledger maps each question's id to that question's `correctOption` is scored
`totalQuestions` with the percentage 100, in the state, in the posted result and on the
results view. Such a ledger is what is left when every question is answered with its
correct option after any earlier selections, which those answers overwrite. -/
theorem perfect_ledger_scores_full (user : User) (post : QuizResult → Except String Unit)
    (s : QuizState) (earlier : List (Nat × String))
    (hn : 0 < s.quizDetails.questions.length)
    (hids : (s.quizDetails.questions.map fun q => q.id).Nodup) :
    (∀ s1 : QuizState, s1.quizDetails = s.quizDetails →
      (∀ q ∈ s.quizDetails.questions,
        lookupAnswer s1.selectedAnswers q.id = some q.correctOption) →
      ∃ st eff r, handleSubmitQuiz user post s1 = Except.ok (st, eff) ∧
        st.score = s.quizDetails.questions.length ∧
        eff.requests = [r] ∧ r.score = s.quizDetails.questions.length ∧
        r.totalQuestions = s.quizDetails.questions.length ∧
        r.percentage = some 100 ∧
        phase st = Phase.completed s.quizDetails.questions.length (some 100)) ∧
    (selectAll (selectAll s earlier) (correctClicks s.quizDetails)).quizDetails =
      s.quizDetails ∧
    (∀ q ∈ s.quizDetails.questions,
      lookupAnswer
        (selectAll (selectAll s earlier) (correctClicks s.quizDetails)).selectedAnswers q.id =
        some q.correctOption) := by
  refine ⟨?_, ?_, ?_⟩
  · intro s1 hquiz hall
    have hcount : countCorrect s1.quizDetails.questions s1.selectedAnswers =
        s.quizDetails.questions.length := by
      rw [hquiz]
      exact countCorrect_of_all_correct _ _ hall
    obtain ⟨eff, hres, hreq⟩ := handleSubmitQuiz_resolves user post s1
    rw [hcount] at hres hreq
    rw [hquiz] at hreq
    have hpct := percentage_self s.quizDetails.questions.length hn
    rw [hpct] at hreq
    refine ⟨_, eff, _, hres, rfl, hreq, rfl, rfl, rfl, ?_⟩
    simp [phase, hquiz, hpct]
  · rw [selectAll_quizDetails, selectAll_quizDetails]
  · intro q hq
    have hfst : (correctClicks s.quizDetails).map Prod.fst =
        s.quizDetails.questions.map fun q => q.id := by
      simp [correctClicks, List.map_map, Function.comp_def]
    have hnd : ((correctClicks s.quizDetails).map Prod.fst).Nodup := by
      rw [hfst]; exact hids
    have hmem : (q.id, q.correctOption) ∈ correctClicks s.quizDetails := by
      simp only [correctClicks, List.mem_map]
      exact ⟨q, hq, rfl⟩
    exact lookupAnswer_selectAll_of_nodup (selectAll s earlier) _ hnd _ hmem

/-- Witness of C21: in the two-question session answered `"A"` and `"X"`, the answers are
changed to `"X"` and `"B"` and then to the correct `"A"` and `"C"`; the quiz is scored 2 of
2, 100 percent. -/
theorem perfect_ledger_scores_full_witness :
    0 < twoQuestionSession.quizDetails.questions.length ∧
    (twoQuestionSession.quizDetails.questions.map fun q => q.id).Nodup ∧
    twoQuestionRetry.selectedAnswers = [(1, "A"), (2, "C")] ∧
    ∃ st eff r, handleSubmitQuiz sampleUser backendUp twoQuestionRetry = Except.ok (st, eff) ∧
      st.score = 2 ∧ eff.requests = [r] ∧ r.score = 2 ∧ r.totalQuestions = 2 ∧
      r.percentage = some 100 ∧ phase st = Phase.completed 2 (some 100) := by
  have h := perfect_ledger_scores_full sampleUser backendUp twoQuestionSession
    [(2, "X"), (1, "B")] (by decide) (by decide)
  exact ⟨by decide, by decide, by decide, h.1 twoQuestionRetry h.2.1 h.2.2⟩

/-! ## The question list of the draft -/

/-- C22: starting from the initial one-question draft, every sequence of calls of
`addQuestion` and `removeQuestion`, with any indices, leaves at least one question. On a
draft with more than one question `removeQuestion(i)` removes exactly the question at
index `i`: the list is one shorter, the questions before `i` stay where they are and those
after `i` move up by one, in their order. On a draft with one question it changes
nothing. -/
theorem removeQuestion_never_empties_the_draft (username : String)
    (events : List FormEvent) (hevents : ∀ e ∈ events, isQuestionListEdit e = true) :
    1 ≤ (runHandlers (initialForm username) events).quiz.questions.length ∧
    (∀ (st : FormState) (i : Nat), 1 < st.quiz.questions.length →
      i < st.quiz.questions.length →
      (removeQuestion st i).1.quiz.questions = filterOutIndex st.quiz.questions i ∧
      (removeQuestion st i).1.quiz.questions.length + 1 = st.quiz.questions.length ∧
      (∀ j, j < i → (removeQuestion st i).1.quiz.questions[j]? = st.quiz.questions[j]?) ∧
      (∀ j, i ≤ j →
        (removeQuestion st i).1.quiz.questions[j]? = st.quiz.questions[j + 1]?) ∧
      (removeQuestion st i).1.quiz.title = st.quiz.title) ∧
    (∀ (st : FormState) (i : Nat), st.quiz.questions.length ≤ 1 →
      (removeQuestion st i).1 = st) := by
  refine ⟨?_, ?_, ?_⟩
  · exact runHandlers_questions_length _ events hevents (initialForm_wellShaped username).1
  · intro st i hgt hi
    have hq : (removeQuestion st i).1.quiz.questions = st.quiz.questions.eraseIdx i := by
      simp [removeQuestion, hgt]
    have ht : (removeQuestion st i).1.quiz.title = st.quiz.title := by
      simp [removeQuestion, hgt]
    rw [hq]
    refine ⟨(filterOutIndex_eq_eraseIdx _ _ _).symm, ?_, ?_, ?_, ht⟩
    · rw [List.length_eraseIdx_of_lt hi]
      omega
    · intro j hj
      exact List.getElem?_eraseIdx_of_lt _ _ _ hj
    · intro j hj
      exact List.getElem?_eraseIdx_of_ge _ _ _ hj
  · intro st i hle
    have hgt : ¬ st.quiz.questions.length > 1 := by omega
    simp [removeQuestion, hgt]

/-- Witness of C22: a question is added, then `removeQuestion` is called three times; one
question is left. -/
theorem removeQuestion_never_empties_the_draft_witness :
    (∀ e ∈ [FormEvent.addQuestion, .removeQuestion 0, .removeQuestion 0, .removeQuestion 7],
      isQuestionListEdit e = true) ∧
    (runHandlers (initialForm "teacher")
      [.addQuestion, .removeQuestion 0, .removeQuestion 0, .removeQuestion 7]).quiz.questions =
      [emptyQuestion] ∧
    1 ≤ (runHandlers (initialForm "teacher")
      [.addQuestion, .removeQuestion 0, .removeQuestion 0,
       .removeQuestion 7]).quiz.questions.length ∧
    (removeQuestion (initialForm "teacher") 0).1 = initialForm "teacher" :=
  ⟨by decide, by decide,
   (removeQuestion_never_empties_the_draft "teacher"
     [.addQuestion, .removeQuestion 0, .removeQuestion 0, .removeQuestion 7] (by decide)).1,
   (removeQuestion_never_empties_the_draft "teacher" [] (by simp)).2.2
     (initialForm "teacher") 0 (by decide)⟩

end QuizFrontend
